import Mathlib

/-!
# DTLS handshake engine of mediaproxy-ng (`daemon/dtls.c`)

A shallow embedding of the hash-function registry, the peer verification
callback, the per-stream handshake session and the transport driver, followed
by the properties established about them.
-/

set_option autoImplicit false

namespace Dtls

/-! ## Bytes and C strings -/

/-! A byte (`char`, `unsigned char`) is kept as its numeric value, a `Nat`;
a byte string or buffer is a `List Nat`. -/

/-- The counted string `str` of `str.h`: `s` holds the `len` bytes pointed to. -/
structure str where
  s : List Nat
  deriving DecidableEq, Repr

/-- The field `len` of a `str`. -/
def str.len (x : str) : Nat := x.s.length

/-- Content of the C string stored in `l`: the bytes before the first NUL
(a list without NUL is terminated right after its last byte). -/
def cstr (l : List Nat) : List Nat := l.takeWhile (fun b => b != 0)

/-- The C library `strlen`. -/
def strlen (l : List Nat) : Nat := (cstr l).length

/-- The C library `tolower` in the "C" locale. -/
def tolower (c : Nat) : Nat := if 65 ≤ c ∧ c ≤ 90 then c + 32 else c

/-- The C library `strncasecmp`: compares at most `n` bytes, case folded,
stops after a NUL in the first operand. Reading past the end of a list reads
the terminating NUL. -/
def strncasecmp : List Nat → List Nat → Nat → Int
  | _, _, 0 => 0
  | s1, s2, n + 1 =>
    let result : Int := (tolower (s1.headD 0) : Int) - (tolower (s2.headD 0) : Int)
    if result ≠ 0 then result
    else if s1.headD 0 = 0 then result
    else strncasecmp s1.tail s2.tail n

/-! ## Hash function registry -/

/-- An X509 certificate, as its encoded bytes. -/
abbrev X509 := List Nat

/-- The message digests `EVP_sha1()` … `EVP_sha512()`. -/
inductive EVP_MD where
  | EVP_sha1 | EVP_sha224 | EVP_sha256 | EVP_sha384 | EVP_sha512
  deriving DecidableEq, Repr

/-- The five static digest functions a `__func` pointer can hold. -/
inductive hash_fn where
  | sha_1_func | sha_224_func | sha_256_func | sha_384_func | sha_512_func
  deriving DecidableEq, Repr

/-- The registry entry `struct dtls_hash_func`. -/
structure dtls_hash_func where
  name : List Nat
  num_bytes : Nat
  __func : hash_fn
  deriving DecidableEq, Repr

/-- The table `hash_funcs`; names are the bytes of "sha-1", "sha-224",
"sha-256", "sha-384", "sha-512". -/
def hash_funcs : List dtls_hash_func :=
  [ { name := [115, 104, 97, 45, 49], num_bytes := 160 / 8, __func := .sha_1_func },
    { name := [115, 104, 97, 45, 50, 50, 52], num_bytes := 224 / 8, __func := .sha_224_func },
    { name := [115, 104, 97, 45, 50, 53, 54], num_bytes := 256 / 8, __func := .sha_256_func },
    { name := [115, 104, 97, 45, 51, 56, 52], num_bytes := 384 / 8, __func := .sha_384_func },
    { name := [115, 104, 97, 45, 53, 49, 50], num_bytes := 512 / 8, __func := .sha_512_func } ]

/-- The constant `num_hash_funcs`. -/
def num_hash_funcs : Nat := hash_funcs.length

/-- The loop of `dtls_find_hash_func` over the table entries still to visit. -/
def dtls_find_hash_func_loop : List dtls_hash_func → str → Option dtls_hash_func
  | [], _ => none
  | hf :: rest, s =>
    if strlen hf.name ≠ s.len then dtls_find_hash_func_loop rest s
    else if strncasecmp s.s hf.name s.len = 0 then some hf
    else dtls_find_hash_func_loop rest s

/-- The function `dtls_find_hash_func`; `none` is `NULL`. -/
def dtls_find_hash_func (s : str) : Option dtls_hash_func :=
  dtls_find_hash_func_loop hash_funcs s

/-- ASCII case-insensitive equality of two byte strings of exactly equal
length, as the registry lookup is specified. -/
def eq_ignore_case (a b : List Nat) : Bool :=
  decide (a.length = b.length) && decide (a.map tolower = b.map tolower)

/-! ## Digest functions and fingerprints -/

/-- Largest digest length, `DTLS_MAX_DIGEST_LEN` (sha-512). -/
def DTLS_MAX_DIGEST_LEN : Nat := 64

/-- Syslog levels used with `mylog`. -/
def LOG_ERROR : Int := 3
/-- Syslog level of a rejected peer certificate. -/
def LOG_WARNING : Int := 4
/-- Syslog level of an accepted peer certificate. -/
def LOG_INFO : Int := 6
/-- Syslog level of the handshake success message. -/
def LOG_DEBUG : Int := 7

/-- An address; a pointer that may be `NULL` is an `Option`. -/
abbrev ptr := Nat

/-- A socket address `struct sockaddr_in6`. -/
structure sockaddr_in6 where
  sin6_family : Nat
  sin6_port : Nat
  sin6_flowinfo : Nat
  sin6_addr : List Nat
  sin6_scope_id : Nat
  deriving DecidableEq, Repr

/-- The message header handed to `sendmsg`, with the one `iovec` it carries
held as the bytes `iov_base[0 .. iov_len)`. -/
structure msghdr where
  msg_name : Option sockaddr_in6
  msg_iov : List (List Nat)
  msg_control : List Nat
  msg_flags : Int
  deriving DecidableEq, Repr

/-- Calls into the environment that have an effect outside the session; a run
of the code yields them in order. -/
inductive event where
  | mylog (level : Int) (msg : String)
  | dtls_hash (hf : dtls_hash_func) (cert : X509)
  | SSL_connect
  | SSL_accept
  | sendmsg (fd : Int) (mh : msghdr) (flags : Int)
  | SSL_CTX_new (client : Bool)
  | SSL_CTX_use_certificate
  | SSL_CTX_use_PrivateKey
  | SSL_CTX_set_tlsext_use_srtp (profiles : List Nat)
  | SSL_CTX_set_verify (mode : Nat)
  | SSL_CTX_set_verify_depth (depth : Int)
  | SSL_CTX_set_cipher_list (list : String)
  | SSL_new
  | BIO_new
  | SSL_set_app_data
  | SSL_set_bio_and_mode (mode : Nat)
  | ERR_peek_last_error
  | BIO_free
  | SSL_free
  | SSL_CTX_free
  deriving DecidableEq, Repr

/-- Capacity of an OpenSSL memory buffer (`LIMIT_BEFORE_EXPANSION` of
`BUF_MEM_grow`): a memory BIO never holds more bytes. -/
def BUF_MEM_LIMIT : Nat := 0x5ffffffc

/-- The byte buffer of a memory BIO, OpenSSL's `BUF_MEM`. -/
structure BUF_MEM where
  data : List Nat
  max : data.length ≤ BUF_MEM_LIMIT

/-- The buffer without a byte in it. -/
def BUF_MEM.empty : BUF_MEM := ⟨[], Nat.zero_le _⟩

/-- An OpenSSL memory BIO (`BIO_s_mem`): its address and its buffer, the bytes
written and not yet read. -/
structure mem_bio where
  addr : ptr
  buf : BUF_MEM

/-- An `SSL` object: its address and the state of its handshake. -/
structure SSL where
  addr : ptr
  state : Nat
  deriving DecidableEq, Repr

/-- What one call of `SSL_connect` or `SSL_accept` leaves behind: the return
value, the state of the handshake object, and the content of the inbound and
of the outbound memory BIO the object reads and writes. -/
structure ssl_step where
  ret : Int
  state : Nat
  r_buf : BUF_MEM
  w_buf : BUF_MEM

/-- The certificate identity `struct dtls_cert` handed to a new session. -/
structure dtls_cert where
  x509 : X509
  pkey : List Nat
  deriving DecidableEq, Repr

/-- The OpenSSL library, as far as `dtls.c` calls it for a result. Every
field may behave in any way; the properties below hold for each behaviour. -/
structure openssl where
  X509_digest : X509 → EVP_MD → List Nat
  SSL_connect : Option SSL → Option mem_bio → Option mem_bio → ssl_step
  SSL_accept : Option SSL → Option mem_bio → Option mem_bio → ssl_step
  SSL_get_error : Option SSL → Int → Int
  SSL_CTX_new : Bool → Option ptr
  SSL_CTX_use_certificate : ptr → X509 → Int
  SSL_CTX_use_PrivateKey : ptr → List Nat → Int
  SSL_CTX_set_tlsext_use_srtp : ptr → List Nat → Int
  SSL_new : ptr → Option SSL
  BIO_new : Nat → Option mem_bio

/-- The value `SSL_ERROR_NONE`. -/
def SSL_ERROR_NONE : Int := 0

/-- The static `generic_func`: `X509_digest(x, md, o, &n)` writes the digest
at the start of `o`; the result is the buffer and `n`. -/
def generic_func (L : openssl) (o : List Nat) (x : X509) (md : EVP_MD) : List Nat × Nat :=
  let dg := L.X509_digest x md
  (dg ++ o.drop dg.length, dg.length)

/-- The static `sha_1_func`. -/
def sha_1_func (L : openssl) (o : List Nat) (x : X509) : List Nat × Nat :=
  generic_func L o x .EVP_sha1
/-- The static `sha_224_func`. -/
def sha_224_func (L : openssl) (o : List Nat) (x : X509) : List Nat × Nat :=
  generic_func L o x .EVP_sha224
/-- The static `sha_256_func`. -/
def sha_256_func (L : openssl) (o : List Nat) (x : X509) : List Nat × Nat :=
  generic_func L o x .EVP_sha256
/-- The static `sha_384_func`. -/
def sha_384_func (L : openssl) (o : List Nat) (x : X509) : List Nat × Nat :=
  generic_func L o x .EVP_sha384
/-- The static `sha_512_func`. -/
def sha_512_func (L : openssl) (o : List Nat) (x : X509) : List Nat × Nat :=
  generic_func L o x .EVP_sha512

/-- Calling through a `__func` pointer. -/
def hash_fn.call (L : openssl) : hash_fn → List Nat → X509 → List Nat × Nat
  | .sha_1_func => Dtls.sha_1_func L
  | .sha_224_func => Dtls.sha_224_func L
  | .sha_256_func => Dtls.sha_256_func L
  | .sha_384_func => Dtls.sha_384_func L
  | .sha_512_func => Dtls.sha_512_func L

/-- Modelled from the spec: `dtls_hash` is an inline helper of `dtls.h`, which
is not among the sources. It "computes the digest of the presented certificate
using the hash function" of the entry, into the buffer `out`. -/
def dtls_hash (L : openssl) (hf : dtls_hash_func) (cert : X509) (out : List Nat) : List Nat :=
  (hf.__func.call L out cert).1

/-- The C library `memcmp` over the first `n` bytes of two buffers. -/
def memcmp : List Nat → List Nat → Nat → Int
  | _, _, 0 => 0
  | a, b, n + 1 =>
    if a.headD 0 ≠ b.headD 0 then (a.headD 0 : Int) - (b.headD 0 : Int)
    else memcmp a.tail b.tail n

/-- The fingerprint `struct dtls_fingerprint`: a digest buffer and the hash
function it was made with (`NULL` while signaling has delivered none). -/
structure dtls_fingerprint where
  digest : List Nat
  hash_func : Option dtls_hash_func
  deriving DecidableEq, Repr

/-- The part of `struct call_media` this file reads. -/
structure call_media where
  fingerprint : dtls_fingerprint
  deriving DecidableEq, Repr

/-- The per-stream handshake session `struct dtls_connection`. -/
structure dtls_connection where
  ssl_ctx : Option ptr
  ssl : Option SSL
  r_bio : Option mem_bio
  w_bio : Option mem_bio
  init : Int
  active : Int
  connected : Int

/-- The all-zero session left by `ZERO(*d)`. -/
def dtls_connection.ZERO : dtls_connection :=
  { ssl_ctx := none, ssl := none, r_bio := none, w_bio := none,
    init := 0, active := 0, connected := 0 }

/-- The part of `struct stream_fd` this file reads: the socket `fd.fd`, the
session, and the back pointer `stream` to the owning packet stream. -/
structure stream_fd where
  fd : Int
  dtls : dtls_connection
  stream : Option ptr

/-- The remote endpoint of a stream. -/
structure endpoint where
  ip46 : List Nat
  port : Nat
  deriving DecidableEq, Repr

/-- The call master reached through `ps->call->callmaster`; `src_control` is
the ancillary data naming the local source address of its sockets. -/
structure callmaster where
  src_control : List Nat
  deriving DecidableEq, Repr

/-- The part of `struct packet_stream` this file reads. -/
structure packet_stream where
  sfd : stream_fd
  media : Option call_media
  endpoint : endpoint
  callmaster : callmaster

/-- The store context of a certificate verification: the `SSL` handle kept as
its ex data and the certificate under verification. -/
structure X509_STORE_CTX where
  ssl : ptr
  current_cert : X509
  deriving DecidableEq, Repr

/-- What the pointers followed by `verify_callback` lead to. -/
structure memory where
  SSL_get_app_data : ptr → stream_fd
  packet_stream_at : ptr → packet_stream

/-- The static `verify_callback`; `fp` is the content of the local digest
buffer on entry. The result is the return value and the calls made. -/
def verify_callback (L : openssl) (mem : memory) (fp : List Nat) (_ok : Int)
    (store : X509_STORE_CTX) : Int × List event :=
  let ssl := store.ssl
  let sfd := mem.SSL_get_app_data ssl
  if sfd.dtls.ssl.map SSL.addr ≠ some ssl then (0, [])
  else
    match sfd.stream with
    | none => (0, [])
    | some p =>
      let ps := mem.packet_stream_at p
      match ps.media with
      | none => (0, [])
      | some media =>
        match media.fingerprint.hash_func with
        | none => (0, [])
        | some hf =>
          let cert := store.current_cert
          let fp := dtls_hash L hf cert fp
          if memcmp media.fingerprint.digest fp hf.num_bytes ≠ 0 then
            (0, [.dtls_hash hf cert,
                 .mylog LOG_WARNING "Peer certificate rejected - fingerprint mismatch"])
          else
            (1, [.dtls_hash hf cert, .mylog LOG_INFO "Peer certificate accepted"])

/-! ## Memory BIOs and machine integers -/

/-- Conversion of an unsigned count to the 32-bit `int` that receives it. -/
def to_int (n : Nat) : Int :=
  if n % 2 ^ 32 < 2 ^ 31 then ((n % 2 ^ 32 : Nat) : Int) else ((n % 2 ^ 32 : Nat) : Int) - 2 ^ 32

/-- Conversion of an `int` to the 64-bit `size_t` it is compared with. -/
def to_size_t (i : Int) : Nat := (i % 2 ^ 64).toNat

/-- OpenSSL `BIO_write` on a memory BIO: appends, and fails with -1 when the
buffer cannot grow; on `NULL` it does nothing and returns 0. -/
def BIO_write (b : Option mem_bio) (data : List Nat) : Int × Option mem_bio :=
  match b with
  | none => (0, none)
  | some m =>
    if h : m.buf.data.length + data.length ≤ BUF_MEM_LIMIT then
      (to_int data.length,
        some { m with buf := ⟨m.buf.data ++ data, by rw [List.length_append]; exact h⟩ })
    else (-1, some m)

/-- OpenSSL `BIO_ctrl_pending`: the number of bytes held, as a `size_t`. -/
def BIO_ctrl_pending (b : Option mem_bio) : Nat :=
  match b with
  | none => 0
  | some m => m.buf.data.length

/-- OpenSSL `BIO_reset` on a memory BIO: drops every byte held. -/
def BIO_reset (b : Option mem_bio) : Option mem_bio :=
  b.map (fun m => { m with buf := BUF_MEM.empty })

/-- OpenSSL `BIO_read` on a memory BIO with a request of `outl` bytes: the
return value, the bytes copied out, and the BIO without them. -/
def BIO_read (b : Option mem_bio) (outl : Int) : Int × List Nat × Option mem_bio :=
  match b with
  | none => (-2, [], none)
  | some m =>
    let ret : Int :=
      if 0 ≤ outl ∧ m.buf.data.length < outl.toNat then to_int m.buf.data.length else outl
    if 0 < ret then
      (ret, m.buf.data.take ret.toNat,
        some { m with buf := ⟨m.buf.data.drop ret.toNat, le_trans (by simp) m.buf.max⟩ })
    else if m.buf.data.length = 0 then (-1, [], some m)
    else (ret, [], some m)

/-- The size of the local `buf` of `dtls`, `sizeof(buf)`. -/
def sizeof_buf : Nat := 0x10000

/-- The address family `AF_INET6`. -/
def AF_INET6 : Nat := 10

/-- The C library `htons` on a little-endian host. -/
def htons (x : Nat) : Nat := (x % 256) * 256 + (x / 256) % 256

/-- Modelled from the spec: `callmaster_msg_mh_src` lives in `call.c`, which is
not among the sources. It annotates the datagram "with ancillary control data
specifying the local source address/port to use for the send"; destination and
payload stay as they are. -/
def callmaster_msg_mh_src (cm : callmaster) (mh : msghdr) : msghdr :=
  { mh with msg_control := cm.src_control }

/-! ## Handshake session and transport driver -/

/-- The packet stream `ps` with its session replaced by `d`. -/
def packet_stream.with_dtls (ps : packet_stream) (d : dtls_connection) : packet_stream :=
  { ps with sfd := { ps.sfd with dtls := d } }

/-- The session `d` once a handshake operation has left `step` behind: the
objects `d` points to are the same, their content is the new one. -/
def dtls_connection.after (d : dtls_connection) (step : ssl_step) : dtls_connection :=
  { d with
    ssl := d.ssl.map (fun o => { o with state := step.state }),
    r_bio := d.r_bio.map (fun b => { b with buf := step.r_buf }),
    w_bio := d.w_bio.map (fun b => { b with buf := step.w_buf }) }

/-- The static `try_connect`: one handshake step. The result is the return
value, the session afterwards and the calls made. -/
def try_connect (L : openssl) (d : dtls_connection) : Int × dtls_connection × List event :=
  if d.connected ≠ 0 then (0, d, [])
  else
    let step : ssl_step × event :=
      if d.active ≠ 0 then (L.SSL_connect d.ssl d.r_bio d.w_bio, event.SSL_connect)
      else (L.SSL_accept d.ssl d.r_bio d.w_bio, event.SSL_accept)
    let d1 : dtls_connection := d.after step.1
    let code := L.SSL_get_error d1.ssl step.1.ret
    if code = SSL_ERROR_NONE then
      (0, { d1 with connected := 1 }, [step.2, .mylog LOG_DEBUG "DTLS handshake successful"])
    else (0, d1, [step.2])

/-- The first statement of `dtls` on a session that is not connected: the
inbound bytes `s`, if any, are written to `r_bio`. -/
def dtls_feed (d : dtls_connection) (s : Option str) : dtls_connection :=
  match s with
  | some s => { d with r_bio := (BIO_write d.r_bio s.s).2 }
  | none => d

/-- The session of `ps` and the calls made once `dtls` has fed the inbound
bytes `s` and has made its handshake step. -/
def dtls_step (L : openssl) (ps : packet_stream) (s : Option str) :
    dtls_connection × List event :=
  (try_connect L (dtls_feed ps.sfd.dtls s)).2

/-- The function `dtls`: feeds a received datagram `s` (or nothing) to the
session of `ps`, makes one handshake step and sends what the step produced to
`fsin` or, without one, to the endpoint of the stream. The result is the return
value, the stream afterwards and the calls made. -/
def dtls (L : openssl) (ps : packet_stream) (s : Option str) (fsin : Option sockaddr_in6) :
    Int × packet_stream × List event :=
  let d := ps.sfd.dtls
  if d.connected ≠ 0 then (0, ps, [])
  else
    let d1 : dtls_connection := dtls_feed d s
    let r := try_connect L d1
    let d2 := r.2.1
    let ev := r.2.2
    let ret : Int := to_int (BIO_ctrl_pending d2.w_bio)
    if ret ≤ 0 then (0, ps.with_dtls d2, ev)
    else if to_size_t ret > sizeof_buf then
      (0, ps.with_dtls { d2 with w_bio := BIO_reset d2.w_bio },
        ev ++ [.mylog LOG_ERROR "BIO buffer overflow"])
    else
      let rd := BIO_read d2.w_bio ret
      let ret : Int := rd.1
      let buf := rd.2.1
      let d3 : dtls_connection := { d2 with w_bio := rd.2.2 }
      if ret ≤ 0 then (0, ps.with_dtls d3, ev)
      else
        let fsin : sockaddr_in6 :=
          match fsin with
          | some a => a
          | none =>
            { sin6_family := AF_INET6, sin6_port := htons ps.endpoint.port, sin6_flowinfo := 0,
              sin6_addr := ps.endpoint.ip46, sin6_scope_id := 0 }
        let mh : msghdr :=
          { msg_name := some fsin, msg_iov := [buf.take ret.toNat], msg_control := [],
            msg_flags := 0 }
        let mh := callmaster_msg_mh_src ps.callmaster mh
        (0, ps.with_dtls d3, ev ++ [.sendmsg ps.sfd.fd mh 0])

/-- The `error:` exit of `dtls_connection_init`, reached with the session `d`
after the calls `ev`: frees what was built, zeroes the session, logs and
returns -1. -/
def dtls_connection_init_error (ps : packet_stream) (d : dtls_connection) (ev : List event) :
    Int × packet_stream × List event :=
  (-1, ps.with_dtls dtls_connection.ZERO,
    ev ++ [event.ERR_peek_last_error]
      ++ (if d.r_bio.isSome then [event.BIO_free] else [])
      ++ (if d.w_bio.isSome then [event.BIO_free] else [])
      ++ (if d.ssl.isSome then [event.SSL_free] else [])
      ++ (if d.ssl_ctx.isSome then [event.SSL_CTX_free] else [])
      ++ [event.mylog LOG_ERROR "Failed to init DTLS connection: %s"])

/-- The `connect:` exit of `dtls_connection_init`, reached with the stream `ps`
after the calls `ev`: `dtls(ps, NULL, NULL)` and return 0. -/
def dtls_connection_init_connect (L : openssl) (ps : packet_stream) (ev : List event) :
    Int × packet_stream × List event :=
  let r := dtls L ps none none
  (0, r.2.1, ev ++ r.2.2)

/-- The value `SSL_VERIFY_PEER | SSL_VERIFY_FAIL_IF_NO_PEER_CERT`. -/
def SSL_VERIFY_PEER_FAIL_IF_NO_PEER_CERT : Nat := 0x01 ||| 0x02

/-- The value `SSL_MODE_ENABLE_PARTIAL_WRITE | SSL_MODE_ACCEPT_MOVING_WRITE_BUFFER`. -/
def SSL_MODE_PARTIAL_MOVING : Nat := 0x01 ||| 0x02

/-- The function `dtls_connection_init`; `ciphers_str` is the content of the
static profile list, and `L.BIO_new 0`, `L.BIO_new 1` are the results of the
two calls `BIO_new(BIO_s_mem())`. The result is the return value, the stream
afterwards and the calls made. -/
def dtls_connection_init (L : openssl) (ciphers_str : List Nat) (ps : packet_stream)
    (active : Int) (cert : dtls_cert) : Int × packet_stream × List event :=
  if ps.sfd.dtls.init ≠ 0 then dtls_connection_init_connect L ps []
  else
    let d : dtls_connection := dtls_connection.ZERO
    let ev : List event := [.SSL_CTX_new (decide (active ≠ 0))]
    match L.SSL_CTX_new (decide (active ≠ 0)) with
    | none => dtls_connection_init_error ps d ev
    | some ctx =>
      let d : dtls_connection := { d with ssl_ctx := some ctx }
      let ev := ev ++ [.SSL_CTX_use_certificate]
      if L.SSL_CTX_use_certificate ctx cert.x509 ≠ 1 then dtls_connection_init_error ps d ev
      else
        let ev := ev ++ [.SSL_CTX_use_PrivateKey]
        if L.SSL_CTX_use_PrivateKey ctx cert.pkey ≠ 1 then dtls_connection_init_error ps d ev
        else
          let ev := ev ++ [.SSL_CTX_set_verify SSL_VERIFY_PEER_FAIL_IF_NO_PEER_CERT,
            .SSL_CTX_set_verify_depth 4,
            .SSL_CTX_set_cipher_list "ALL:!ADH:!LOW:!EXP:!MD5:@STRENGTH",
            .SSL_CTX_set_tlsext_use_srtp ciphers_str]
          if L.SSL_CTX_set_tlsext_use_srtp ctx ciphers_str ≠ 0 then
            dtls_connection_init_error ps d ev
          else
            let ev := ev ++ [.SSL_new]
            match L.SSL_new ctx with
            | none => dtls_connection_init_error ps d ev
            | some ssl =>
              let d : dtls_connection := { d with ssl := some ssl }
              let d : dtls_connection := { d with r_bio := L.BIO_new 0 }
              let d : dtls_connection := { d with w_bio := L.BIO_new 1 }
              let ev := ev ++ [.BIO_new, .BIO_new]
              if d.r_bio.isNone ∨ d.w_bio.isNone then dtls_connection_init_error ps d ev
              else
                let ev := ev ++ [.SSL_set_app_data, .SSL_set_bio_and_mode SSL_MODE_PARTIAL_MOVING]
                let d : dtls_connection := { d with init := 1 }
                let d : dtls_connection := { d with active := active }
                dtls_connection_init_connect L (ps.with_dtls d) ev

/-! ## Start-up: the advertised SRTP profile list -/

/-- The part of `struct crypto_suite` (`crypto.h`) that `dtls_init` reads:
`dtls_name` is `NULL` for a suite without a DTLS profile. -/
structure crypto_suite where
  name : List Nat
  dtls_name : Option (List Nat)
  deriving DecidableEq, Repr

/-- How a run of `dtls_init` can end without returning. -/
inductive fault where
  | assertion_failed
  | buffer_overrun
  deriving DecidableEq, Repr

/-- The size of the static `ciphers_str`, `sizeof(ciphers_str)`. -/
def sizeof_ciphers_str : Nat := 1024

/-- The C library `sprintf(p, "%s:", name)` on the buffer `buf`, where `p` is
an offset into it: the buffer afterwards and the number of characters
written, the terminating NUL not counted. A write past the end of the buffer
is a fault. -/
def sprintf_name (buf : List Nat) (p : Nat) (name : List Nat) :
    Except fault (List Nat × Nat) :=
  let out := cstr name ++ [58, 0]
  if p + out.length ≤ buf.length then
    .ok (buf.take p ++ out ++ buf.drop (p + out.length), out.length - 1)
  else .error .buffer_overrun

/-- The loop of `dtls_init` over the suites still to visit; `p` is the offset
of the write position in `ciphers_str`. -/
def dtls_init_loop : List crypto_suite → List Nat → Nat → Except fault (List Nat × Nat)
  | [], buf, p => .ok (buf, p)
  | cs :: rest, buf, p =>
    match cs.dtls_name with
    | none => dtls_init_loop rest buf p
    | some nm =>
      match sprintf_name buf p nm with
      | .error e => .error e
      | .ok r => dtls_init_loop rest r.1 (p + r.2)

/-- The function `dtls_init`, given the value `cert_init()` returned and the
table `crypto_suites`: the return value and the content of `ciphers_str`
afterwards, or the fault that ended the run. -/
def dtls_init (cert_init : Int) (crypto_suites : List crypto_suite) :
    Except fault (Int × List Nat) :=
  let ciphers_str : List Nat := List.replicate sizeof_ciphers_str 0
  if cert_init ≠ 0 then .ok (-1, ciphers_str)
  else
    match dtls_init_loop crypto_suites ciphers_str 0 with
    | .error e => .error e
    | .ok r =>
      let p := r.2
      if p = 0 then .error .assertion_failed
      else if ¬ p < sizeof_ciphers_str then .error .assertion_failed
      else .ok (0, r.1.set (p - 1) 0)

/-- The suites' DTLS profile names, in configuration order, of those suites
that define one. -/
def dtls_names (crypto_suites : List crypto_suite) : List (List Nat) :=
  (crypto_suites.filterMap crypto_suite.dtls_name).map cstr

/-- The names `ns` joined by single ':' characters. -/
def join_colon (ns : List (List Nat)) : List Nat := List.intercalate [58] ns

/-- The number of bytes the loop of `dtls_init` writes for the names `ns`:
each name and the ':' after it. -/
def written_len (ns : List (List Nat)) : Nat := (ns.map (fun n => n.length + 1)).sum

/-- The message digest each of the five digest functions passes to
`generic_func`. -/
def hash_fn.md : hash_fn → EVP_MD
  | .sha_1_func => .EVP_sha1
  | .sha_224_func => .EVP_sha224
  | .sha_256_func => .EVP_sha256
  | .sha_384_func => .EVP_sha384
  | .sha_512_func => .EVP_sha512

/-- The digest of the certificate `cert` under the hash function `hf`. -/
def cert_digest (L : openssl) (hf : dtls_hash_func) (cert : X509) : List Nat :=
  L.X509_digest cert hf.__func.md

/-- The byte string `l` with bit `k` of its byte `i` flipped. -/
def flip_bit (l : List Nat) (i k : Nat) : List Nat := l.set i (l.getD i 0 ^^^ 2 ^ k)

/-- The payloads of the datagrams sent by the calls `ev`, in order. -/
def datagrams (ev : List event) : List (List Nat) :=
  ev.filterMap fun e =>
    match e with
    | .sendmsg _ mh _ => some mh.msg_iov.flatten
    | _ => none

/-- The number of handshake steps among the calls `ev`. -/
def handshake_calls (ev : List event) : Nat :=
  ev.count .SSL_connect + ev.count .SSL_accept

/-- The call by which `try_connect` takes its step on a session that is not
connected: `SSL_connect` in the active role, `SSL_accept` in the passive one. -/
def handshake_event (d : dtls_connection) : event :=
  if d.active ≠ 0 then .SSL_connect else .SSL_accept

/-- The handshake operation `try_connect` runs on a session that is not connected. -/
def handshake_step (L : openssl) (d : dtls_connection) : ssl_step :=
  if d.active ≠ 0 then L.SSL_connect d.ssl d.r_bio d.w_bio
  else L.SSL_accept d.ssl d.r_bio d.w_bio

/-- The outcome `SSL_get_error` reports for that step. -/
def handshake_code (L : openssl) (d : dtls_connection) : Int :=
  L.SSL_get_error (d.after (handshake_step L d)).ssl (handshake_step L d).ret

/-- The destination `dtls` sends to. -/
def dtls_destination (ps : packet_stream) (fsin : Option sockaddr_in6) : sockaddr_in6 :=
  match fsin with
  | some a => a
  | none =>
    { sin6_family := AF_INET6, sin6_port := htons ps.endpoint.port, sin6_flowinfo := 0,
      sin6_addr := ps.endpoint.ip46, sin6_scope_id := 0 }

/-- Whether every construction step of `dtls_connection_init` succeeds for the
role `active` and the certificate `cert`: context creation, certificate
binding, private-key binding, SRTP profile configuration, SSL object creation
and the allocation of the two memory buffers. -/
def construction_succeeds (L : openssl) (ciphers_str : List Nat) (active : Int)
    (cert : dtls_cert) : Bool :=
  match L.SSL_CTX_new (decide (active ≠ 0)) with
  | none => false
  | some ctx =>
    decide (L.SSL_CTX_use_certificate ctx cert.x509 = 1)
    && decide (L.SSL_CTX_use_PrivateKey ctx cert.pkey = 1)
    && decide (L.SSL_CTX_set_tlsext_use_srtp ctx ciphers_str = 0)
    && (L.SSL_new ctx).isSome
    && (L.BIO_new 0).isSome
    && (L.BIO_new 1).isSome

/-- What the loop of `dtls_init` writes for the names `ns`: each name with a
':' after it. -/
def colon_terminated : List (List Nat) → List Nat
  | [] => []
  | n :: ns => n ++ [58] ++ colon_terminated ns

/-! ## Concrete inputs -/

/-- A library whose handshake steps leave `produced` in the outbound BIO and
report `code`, whose context creation yields `ctx`, and whose digests are 20
bytes holding the length of the certificate. -/
def sample_openssl (produced : BUF_MEM) (code : Int) (ctx : Option ptr) : openssl :=
  { X509_digest := fun x _ => List.replicate 20 (x.length % 256),
    SSL_connect := fun _ _ _ => ⟨1, 1, BUF_MEM.empty, produced⟩,
    SSL_accept := fun _ _ _ => ⟨1, 1, BUF_MEM.empty, produced⟩,
    SSL_get_error := fun _ _ => code,
    SSL_CTX_new := fun _ => ctx,
    SSL_CTX_use_certificate := fun _ _ => 1,
    SSL_CTX_use_PrivateKey := fun _ _ => 1,
    SSL_CTX_set_tlsext_use_srtp := fun _ _ => 0,
    SSL_new := fun c => some ⟨c + 1, 0⟩,
    BIO_new := fun n => some ⟨20 + n, BUF_MEM.empty⟩ }

/-- A session with the given flags, an `SSL` object at address 2 and two empty
buffers. -/
def sample_session (init active connected : Int) : dtls_connection :=
  { ssl_ctx := some 1, ssl := some ⟨2, 0⟩, r_bio := some ⟨20, BUF_MEM.empty⟩,
    w_bio := some ⟨21, BUF_MEM.empty⟩, init := init, active := active, connected := connected }

/-- A media whose expected fingerprint is a sha-1 digest of twenty bytes 3. -/
def sample_media : call_media :=
  { fingerprint :=
      { digest := List.replicate 20 3 ++ List.replicate 44 0,
        hash_func := some ⟨[115, 104, 97, 45, 49], 20, .sha_1_func⟩ } }

/-- A packet stream on socket 3 with the session `d`. -/
def sample_stream (d : dtls_connection) (media : Option call_media) : packet_stream :=
  { sfd := { fd := 3, dtls := d, stream := some 9 },
    media := media,
    endpoint := { ip46 := List.replicate 16 0, port := 5004 },
    callmaster := { src_control := [] } }

/-- A memory in which every handshake object belongs to the stream `ps`. -/
def sample_memory (ps : packet_stream) : memory :=
  { SSL_get_app_data := fun _ => ps.sfd, packet_stream_at := fun _ => ps }

/-- A verification of the three-byte certificate `[1, 2, 3]` on the handshake
object at address 2. -/
def sample_store : X509_STORE_CTX := { ssl := 2, current_cert := [1, 2, 3] }

/-- Outbound content: the three bytes of a short record. -/
def sample_record : BUF_MEM := ⟨[22, 254, 255], by decide⟩

/-- Outbound content of 65537 bytes, one more than `dtls` can send. -/
def sample_oversized : BUF_MEM :=
  ⟨List.replicate 65537 0, by rw [List.length_replicate]; decide⟩

/-- A suite table with two DTLS profiles, "AB" and "C", around a suite
without one. -/
def sample_suites : List crypto_suite :=
  [⟨[120], some [65, 66]⟩, ⟨[121], none⟩, ⟨[122], some [67]⟩]

/-- A suite table with a single DTLS profile whose name is 1023 bytes 'A': the
name and its terminating NUL fill the 1024 bytes of `ciphers_str` exactly. -/
def sample_long_suites : List crypto_suite :=
  [⟨[120], some (List.replicate 1023 65)⟩]

/-! ## Properties -/

theorem tolower_eq_zero (c : Nat) : tolower c = 0 ↔ c = 0 := by
  unfold tolower
  split <;> omega

theorem cstr_of_no_nul (l : List Nat) (h : ∀ b ∈ l, b ≠ 0) : cstr l = l := by
  unfold cstr
  rw [List.takeWhile_eq_self_iff]
  intro b hb
  simpa using h b hb

theorem strlen_of_no_nul (l : List Nat) (h : ∀ b ∈ l, b ≠ 0) : strlen l = l.length := by
  unfold strlen
  rw [cstr_of_no_nul l h]

theorem strncasecmp_eq_zero (n : Nat) : ∀ (s1 s2 : List Nat), n ≤ s1.length → n ≤ s2.length →
    (∀ b ∈ s2.take n, b ≠ 0) →
    (strncasecmp s1 s2 n = 0 ↔ (s1.take n).map tolower = (s2.take n).map tolower) := by
  induction n with
  | zero => intro s1 s2 _ _ _; simp [strncasecmp]
  | succ n ih =>
    intro s1 s2 h1 h2 hz
    match s1, s2, h1, h2 with
    | a :: s1, b :: s2, h1, h2 =>
      have hb : b ≠ 0 := hz b (by simp)
      have htb : tolower b ≠ 0 := fun h => hb ((tolower_eq_zero b).1 h)
      have ih' := ih s1 s2 (by simpa using h1) (by simpa using h2)
        (fun c hc => hz c (by simp [hc]))
      simp only [strncasecmp, List.headD_cons, List.tail_cons, List.take_succ_cons, List.map_cons,
        List.cons.injEq]
      by_cases hab : tolower a = tolower b
      · have ha : a ≠ 0 := by
          intro h0
          apply htb
          rw [← hab, h0]
          decide
        simp [hab, ha, ih']
      · have : (tolower a : Int) - (tolower b : Int) ≠ 0 := by omega
        simp [hab, this]

theorem find_loop_eq_find (s : str) : ∀ (tbl : List dtls_hash_func),
    (∀ hf ∈ tbl, ∀ b ∈ hf.name, b ≠ 0) →
    dtls_find_hash_func_loop tbl s = tbl.find? (fun hf => eq_ignore_case s.s hf.name) := by
  intro tbl
  induction tbl with
  | nil => intro _; rfl
  | cons hf rest ih =>
    intro hz
    have hnz : ∀ b ∈ hf.name, b ≠ 0 := hz hf (by simp)
    have ih' := ih (fun g hg => hz g (by simp [hg]))
    simp only [dtls_find_hash_func_loop, List.find?_cons, strlen_of_no_nul hf.name hnz, str.len]
    by_cases hlen : hf.name.length = s.s.length
    · have hcmp := strncasecmp_eq_zero s.s.length s.s hf.name (le_refl _) (by omega)
        (fun b hb => hnz b (List.mem_of_mem_take hb))
      rw [List.take_length, ← hlen, List.take_length] at hcmp
      by_cases hm : s.s.map tolower = hf.name.map tolower
      · have h0 : strncasecmp s.s hf.name hf.name.length = 0 := hcmp.2 hm
        have he : eq_ignore_case s.s hf.name = true := by simp [eq_ignore_case, hm, hlen.symm]
        rw [hlen] at h0
        rw [he]
        simp [hlen, h0]
      · have h0 : strncasecmp s.s hf.name hf.name.length ≠ 0 := fun h => hm (hcmp.1 h)
        have he : eq_ignore_case s.s hf.name = false := by simp [eq_ignore_case, hm]
        rw [hlen] at h0
        rw [he]
        simp [hlen, h0, ih']
    · have hlen' : ¬ s.s.length = hf.name.length := fun h => hlen h.symm
      simp [hlen, eq_ignore_case, hlen', ih']

theorem hash_funcs_no_nul : ∀ hf ∈ hash_funcs, ∀ b ∈ hf.name, b ≠ 0 := by decide

/-- C3: for every name `s`, `dtls_find_hash_func` returns the first table entry
whose name equals `s` under ASCII case-insensitive comparison at exactly equal
length, and `NULL` when there is none: every case variant of "sha-1",
"sha-224", "sha-256", "sha-384", "sha-512" yields the entry with 20, 28, 32,
48, 64 bytes, and every other string yields `NULL`. -/
theorem dtls_find_hash_func_case_insensitive (s : str) :
    dtls_find_hash_func s = hash_funcs.find? (fun hf => eq_ignore_case s.s hf.name)
    ∧ (∀ hf, dtls_find_hash_func s = some hf → hf ∈ hash_funcs ∧ eq_ignore_case s.s hf.name = true)
    ∧ (dtls_find_hash_func s = none ↔ ∀ hf ∈ hash_funcs, eq_ignore_case s.s hf.name = false)
    ∧ (s.s.map tolower = [115, 104, 97, 45, 49] →
        dtls_find_hash_func s = some ⟨[115, 104, 97, 45, 49], 20, .sha_1_func⟩)
    ∧ (s.s.map tolower = [115, 104, 97, 45, 50, 50, 52] →
        dtls_find_hash_func s = some ⟨[115, 104, 97, 45, 50, 50, 52], 28, .sha_224_func⟩)
    ∧ (s.s.map tolower = [115, 104, 97, 45, 50, 53, 54] →
        dtls_find_hash_func s = some ⟨[115, 104, 97, 45, 50, 53, 54], 32, .sha_256_func⟩)
    ∧ (s.s.map tolower = [115, 104, 97, 45, 51, 56, 52] →
        dtls_find_hash_func s = some ⟨[115, 104, 97, 45, 51, 56, 52], 48, .sha_384_func⟩)
    ∧ (s.s.map tolower = [115, 104, 97, 45, 53, 49, 50] →
        dtls_find_hash_func s = some ⟨[115, 104, 97, 45, 53, 49, 50], 64, .sha_512_func⟩)
    ∧ (s.s.map tolower ∉ hash_funcs.map dtls_hash_func.name → dtls_find_hash_func s = none) := by
  have key : dtls_find_hash_func s = hash_funcs.find? (fun hf => eq_ignore_case s.s hf.name) :=
    find_loop_eq_find s hash_funcs hash_funcs_no_nul
  have hv : ∀ (nm : List Nat), s.s.map tolower = nm →
      ∀ hf : dtls_hash_func, eq_ignore_case s.s hf.name
        = (decide (nm.length = hf.name.length) && decide (nm = hf.name.map tolower)) := by
    intro nm h hf
    have hl : s.s.length = nm.length := by rw [← h, List.length_map]
    simp [eq_ignore_case, hl, h]
  refine ⟨key, ?_, ?_, ?_, ?_, ?_, ?_, ?_, ?_⟩
  · intro hf h
    rw [key] at h
    have hp := List.find?_some h
    exact ⟨List.mem_of_find?_eq_some h, hp⟩
  · rw [key, List.find?_eq_none]
    simp
  · intro h
    rw [key]
    simp only [hash_funcs, List.find?_cons, hv _ h]
    rfl
  · intro h
    rw [key]
    simp only [hash_funcs, List.find?_cons, hv _ h]
    rfl
  · intro h
    rw [key]
    simp only [hash_funcs, List.find?_cons, hv _ h]
    rfl
  · intro h
    rw [key]
    simp only [hash_funcs, List.find?_cons, hv _ h]
    rfl
  · intro h
    rw [key]
    simp only [hash_funcs, List.find?_cons, hv _ h]
    rfl
  · intro h
    rw [key, List.find?_eq_none]
    intro hf hmem
    have hn : s.s.map tolower ≠ hf.name := fun e => h (e ▸ List.mem_map_of_mem _ hmem)
    have hlow : ∀ g ∈ hash_funcs, g.name.map tolower = g.name := by decide
    simp [eq_ignore_case, hlow hf hmem, hn]

theorem dtls_hash_eq (L : openssl) (hf : dtls_hash_func) (cert : X509) (out : List Nat) :
    dtls_hash L hf cert out
      = cert_digest L hf cert ++ out.drop (cert_digest L hf cert).length := by
  unfold dtls_hash cert_digest
  cases hf.__func <;> rfl

theorem memcmp_eq_zero (n : Nat) : ∀ (a b : List Nat), n ≤ a.length → n ≤ b.length →
    (memcmp a b n = 0 ↔ a.take n = b.take n) := by
  induction n with
  | zero => intro a b _ _; simp [memcmp]
  | succ n ih =>
    intro a b ha hb
    match a, b, ha, hb with
    | x :: a, y :: b, ha, hb =>
      have ih' := ih a b (by simpa using ha) (by simpa using hb)
      simp only [memcmp, List.headD_cons, List.tail_cons, List.take_succ_cons, List.cons.injEq]
      by_cases hxy : x = y
      · simp [hxy, ih']
      · have : (x : Int) - (y : Int) ≠ 0 := by omega
        simp [hxy, this]

theorem xor_two_pow_ne (x k : Nat) : x ^^^ 2 ^ k ≠ x := by
  intro h
  have h1 := congrArg (fun y => y.testBit k) h
  simp [Nat.testBit_xor, Nat.testBit_two_pow_self] at h1

theorem flip_bit_ne (l : List Nat) (i k : Nat) (hi : i < l.length) : flip_bit l i k ≠ l := by
  intro h
  have h1 := congrArg (fun m => m.getD i 0) h
  simp only [flip_bit] at h1
  rw [List.getD_eq_getElem?_getD, List.getD_eq_getElem?_getD] at h1
  simp [List.getElem?_set, hi] at h1
  exact xor_two_pow_ne _ _ h1

theorem flip_bit_take (l : List Nat) (i k n : Nat) (hi : i < n) :
    (flip_bit l i k).take n = flip_bit (l.take n) i k := by
  unfold flip_bit
  rw [← List.set_take]
  congr 1
  simp [List.getD_eq_getElem?_getD, List.getElem?_take, hi]

theorem verify_callback_valid (L : openssl) (mem : memory) (fp : List Nat) (ok : Int)
    (store : X509_STORE_CTX) (p : ptr) (media : call_media) (h : dtls_hash_func)
    (hssl : (mem.SSL_get_app_data store.ssl).dtls.ssl.map SSL.addr = some store.ssl)
    (hps : (mem.SSL_get_app_data store.ssl).stream = some p)
    (hmedia : (mem.packet_stream_at p).media = some media)
    (hh : media.fingerprint.hash_func = some h) :
    verify_callback L mem fp ok store =
      if memcmp media.fingerprint.digest (dtls_hash L h store.current_cert fp) h.num_bytes ≠ 0
      then (0, [.dtls_hash h store.current_cert,
                .mylog LOG_WARNING "Peer certificate rejected - fingerprint mismatch"])
      else (1, [.dtls_hash h store.current_cert, .mylog LOG_INFO "Peer certificate accepted"]) := by
  simp only [verify_callback, hssl, hps, hmedia, hh, ne_eq, not_true_eq_false, if_false]

/-- C1: when the handshake object maps to a stream whose media has an expected
fingerprint with hash function `h`, then for every certificate and every value
of `ok` the callback returns 1 exactly when the first `h.num_bytes` bytes of
the stored digest are the digest of the certificate under `h`, and 0 otherwise;
a stored digest that is a matching one with a single bit flipped is rejected. -/
theorem verify_callback_accepts_iff_digest_identical (L : openssl) (mem : memory)
    (fp : List Nat) (ok : Int) (store : X509_STORE_CTX) (p : ptr) (media : call_media)
    (h : dtls_hash_func)
    (hssl : (mem.SSL_get_app_data store.ssl).dtls.ssl.map SSL.addr = some store.ssl)
    (hps : (mem.SSL_get_app_data store.ssl).stream = some p)
    (hmedia : (mem.packet_stream_at p).media = some media)
    (hh : media.fingerprint.hash_func = some h)
    (hdg : (cert_digest L h store.current_cert).length = h.num_bytes)
    (hbuf : h.num_bytes ≤ media.fingerprint.digest.length) :
    ((verify_callback L mem fp ok store).1 = 1 ↔
        media.fingerprint.digest.take h.num_bytes = cert_digest L h store.current_cert)
    ∧ ((verify_callback L mem fp ok store).1 = 0 ↔
        media.fingerprint.digest.take h.num_bytes ≠ cert_digest L h store.current_cert)
    ∧ (∀ (e : List Nat) (i k : Nat), e.take h.num_bytes = cert_digest L h store.current_cert →
        i < h.num_bytes → k < 8 → media.fingerprint.digest = flip_bit e i k →
        (verify_callback L mem fp ok store).1 = 0) := by
  have hv := verify_callback_valid L mem fp ok store p media h hssl hps hmedia hh
  have hfp : (dtls_hash L h store.current_cert fp).take h.num_bytes
      = cert_digest L h store.current_cert := by
    rw [dtls_hash_eq, ← hdg, List.take_left]
  have hcmp := memcmp_eq_zero h.num_bytes media.fingerprint.digest
    (dtls_hash L h store.current_cert fp) hbuf
    (by rw [dtls_hash_eq, List.length_append]; omega)
  rw [hfp] at hcmp
  have h1 : (verify_callback L mem fp ok store).1 = 1 ↔
      media.fingerprint.digest.take h.num_bytes = cert_digest L h store.current_cert := by
    rw [hv, ← hcmp]
    by_cases hc : memcmp media.fingerprint.digest (dtls_hash L h store.current_cert fp)
        h.num_bytes = 0 <;> simp [hc]
  have h0 : (verify_callback L mem fp ok store).1 = 0 ↔
      media.fingerprint.digest.take h.num_bytes ≠ cert_digest L h store.current_cert := by
    rw [hv]
    by_cases hc : memcmp media.fingerprint.digest (dtls_hash L h store.current_cert fp)
        h.num_bytes = 0
    · simp [hc, hcmp.1 hc]
    · simp only [hc, ne_eq, not_false_eq_true, if_true, true_iff]
      exact fun e => hc (hcmp.2 e)
  refine ⟨h1, h0, ?_⟩
  intro e i k he hi _ hd
  rw [h0, hd, flip_bit_take e i k h.num_bytes hi, he]
  exact flip_bit_ne _ i k (by rw [hdg]; exact hi)

/-- C2: the callback returns 0, without computing a digest or logging, whenever
`sfd->dtls.ssl` is not the handshake object, or `sfd->stream` is `NULL`, or the
stream's media is `NULL`, or the media's fingerprint has no hash function; this
holds for every certificate, every digest behaviour and every value of `ok`. -/
theorem verify_callback_fail_closed (L : openssl) (mem : memory) (fp : List Nat) (ok : Int)
    (store : X509_STORE_CTX)
    (h : (mem.SSL_get_app_data store.ssl).dtls.ssl.map SSL.addr ≠ some store.ssl
      ∨ (mem.SSL_get_app_data store.ssl).stream = none
      ∨ (∃ p, (mem.SSL_get_app_data store.ssl).stream = some p
          ∧ (mem.packet_stream_at p).media = none)
      ∨ (∃ p media, (mem.SSL_get_app_data store.ssl).stream = some p
          ∧ (mem.packet_stream_at p).media = some media
          ∧ media.fingerprint.hash_func = none)) :
    verify_callback L mem fp ok store = (0, []) := by
  unfold verify_callback
  by_cases hssl : (mem.SSL_get_app_data store.ssl).dtls.ssl.map SSL.addr = some store.ssl
  · rcases h with h | h | ⟨p, hp, hm⟩ | ⟨p, media, hp, hm, hf⟩
    · exact absurd hssl h
    · simp [hssl, h]
    · simp [hssl, hp, hm]
    · simp [hssl, hp, hm, hf]
  · simp [hssl]

theorem to_int_of_lt (n : Nat) (h : n < 2 ^ 31) : to_int n = (n : Int) := by
  unfold to_int
  have h1 : n % 2 ^ 32 = n := Nat.mod_eq_of_lt (by omega)
  rw [h1, if_pos h]

theorem to_size_t_of_nat (n : Nat) (h : n < 2 ^ 64) : to_size_t (n : Int) = n := by
  unfold to_size_t
  have : ((n : Int) % 2 ^ 64) = (n : Int) := Int.emod_eq_of_lt (by omega) (by exact_mod_cast h)
  rw [this]
  simp

theorem pending_lt (b : Option mem_bio) : BIO_ctrl_pending b < 2 ^ 31 := by
  cases b with
  | none => simp [BIO_ctrl_pending]
  | some m =>
    have := m.buf.max
    simp only [BIO_ctrl_pending, BUF_MEM_LIMIT] at *
    omega

theorem datagrams_append (a b : List event) :
    datagrams (a ++ b) = datagrams a ++ datagrams b := by
  simp [datagrams, List.filterMap_append]

theorem handshake_event_cases (d : dtls_connection) :
    handshake_event d = .SSL_connect ∨ handshake_event d = .SSL_accept := by
  unfold handshake_event
  split
  · exact Or.inl rfl
  · exact Or.inr rfl

/-- What `try_connect` does on a session that is not connected. -/
theorem try_connect_eq (L : openssl) (d : dtls_connection) (hc : d.connected = 0) :
    try_connect L d =
      if handshake_code L d = SSL_ERROR_NONE then
        (0, { d.after (handshake_step L d) with connected := 1 },
          [handshake_event d, .mylog LOG_DEBUG "DTLS handshake successful"])
      else (0, d.after (handshake_step L d), [handshake_event d]) := by
  unfold try_connect handshake_code handshake_step handshake_event
  by_cases ha : d.active = 0 <;> simp [hc, ha]

theorem after_fields (d : dtls_connection) (step : ssl_step) :
    (d.after step).init = d.init ∧ (d.after step).active = d.active
    ∧ (d.after step).connected = d.connected ∧ (d.after step).ssl_ctx = d.ssl_ctx
    ∧ (d.after step).ssl.map SSL.addr = d.ssl.map SSL.addr
    ∧ (d.after step).r_bio.map mem_bio.addr = d.r_bio.map mem_bio.addr
    ∧ (d.after step).w_bio.map mem_bio.addr = d.w_bio.map mem_bio.addr := by
  refine ⟨rfl, rfl, rfl, rfl, ?_, ?_, ?_⟩
  · cases h : d.ssl <;> simp [dtls_connection.after, h]
  · cases h : d.r_bio <;> simp [dtls_connection.after, h]
  · cases h : d.w_bio <;> simp [dtls_connection.after, h]

theorem try_connect_events (L : openssl) (d : dtls_connection) :
    datagrams (try_connect L d).2.2 = []
    ∧ (try_connect L d).2.1.init = d.init
    ∧ (try_connect L d).2.1.active = d.active
    ∧ (try_connect L d).2.1.ssl_ctx = d.ssl_ctx
    ∧ (try_connect L d).2.1.ssl.map SSL.addr = d.ssl.map SSL.addr
    ∧ (try_connect L d).2.1.r_bio.map mem_bio.addr = d.r_bio.map mem_bio.addr
    ∧ (try_connect L d).2.1.w_bio.map mem_bio.addr = d.w_bio.map mem_bio.addr
    ∧ (∀ e ∈ (try_connect L d).2.2, e = .SSL_connect ∨ e = .SSL_accept
        ∨ e = .mylog LOG_DEBUG "DTLS handshake successful") := by
  by_cases hc : d.connected = 0
  · have ha := after_fields d (handshake_step L d)
    have he := handshake_event_cases d
    rw [try_connect_eq L d hc]
    split
    · refine ⟨?_, ha.1, ha.2.1, ha.2.2.2.1, ha.2.2.2.2.1, ha.2.2.2.2.2.1, ha.2.2.2.2.2.2, ?_⟩
      · rcases he with he | he <;> simp [datagrams, he]
      · intro e hm
        simp only [List.mem_cons, List.mem_singleton, List.not_mem_nil, or_false] at hm
        rcases hm with hm | hm
        · rcases he with he | he
          · exact Or.inl (hm.trans he)
          · exact Or.inr (Or.inl (hm.trans he))
        · exact Or.inr (Or.inr hm)
    · refine ⟨?_, ha.1, ha.2.1, ha.2.2.2.1, ha.2.2.2.2.1, ha.2.2.2.2.2.1, ha.2.2.2.2.2.2, ?_⟩
      · rcases he with he | he <;> simp [datagrams, he]
      · intro e hm
        simp only [List.mem_singleton] at hm
        rcases he with he | he
        · exact Or.inl (hm.trans he)
        · exact Or.inr (Or.inl (hm.trans he))
  · unfold try_connect
    simp [hc, datagrams]

theorem try_connect_counts (L : openssl) (d : dtls_connection) (hc : d.connected = 0) :
    ((try_connect L d).2.2.count .SSL_connect = if d.active ≠ 0 then 1 else 0)
    ∧ ((try_connect L d).2.2.count .SSL_accept = if d.active ≠ 0 then 0 else 1) := by
  rw [try_connect_eq L d hc]
  unfold handshake_event
  by_cases ha : d.active = 0 <;> by_cases hk : handshake_code L d = SSL_ERROR_NONE <;>
    simp [ha, hk]

theorem dtls_feed_fields (d : dtls_connection) (s : Option str) :
    (dtls_feed d s).init = d.init ∧ (dtls_feed d s).active = d.active
    ∧ (dtls_feed d s).connected = d.connected ∧ (dtls_feed d s).ssl_ctx = d.ssl_ctx
    ∧ (dtls_feed d s).ssl = d.ssl
    ∧ (dtls_feed d s).r_bio.map mem_bio.addr = d.r_bio.map mem_bio.addr
    ∧ (dtls_feed d s).w_bio = d.w_bio := by
  cases s with
  | none => exact ⟨rfl, rfl, rfl, rfl, rfl, rfl, rfl⟩
  | some s =>
    refine ⟨rfl, rfl, rfl, rfl, rfl, ?_, rfl⟩
    simp only [dtls_feed, BIO_write]
    cases h : d.r_bio with
    | none => rfl
    | some m =>
      simp only
      split <;> rfl

theorem dtls_connected (L : openssl) (ps : packet_stream) (s : Option str)
    (fsin : Option sockaddr_in6) (h : ps.sfd.dtls.connected ≠ 0) :
    dtls L ps s fsin = (0, ps, []) := by
  unfold dtls
  simp [h]

theorem dtls_nothing_pending (L : openssl) (ps : packet_stream) (s : Option str)
    (fsin : Option sockaddr_in6) (h : ps.sfd.dtls.connected = 0)
    (hp : BIO_ctrl_pending (dtls_step L ps s).1.w_bio = 0) :
    dtls L ps s fsin = (0, ps.with_dtls (dtls_step L ps s).1, (dtls_step L ps s).2) := by
  unfold dtls_step at hp ⊢
  unfold dtls
  simp only [h, ne_eq, not_true_eq_false, if_false]
  simp only [hp]
  simp [to_int]

theorem dtls_overflow (L : openssl) (ps : packet_stream) (s : Option str)
    (fsin : Option sockaddr_in6) (h : ps.sfd.dtls.connected = 0)
    (hp : sizeof_buf < BIO_ctrl_pending (dtls_step L ps s).1.w_bio) :
    dtls L ps s fsin
      = (0, ps.with_dtls { (dtls_step L ps s).1 with
              w_bio := BIO_reset (dtls_step L ps s).1.w_bio },
          (dtls_step L ps s).2 ++ [.mylog LOG_ERROR "BIO buffer overflow"]) := by
  have hlt := pending_lt (dtls_step L ps s).1.w_bio
  have hi := to_int_of_lt _ hlt
  have hs := to_size_t_of_nat (BIO_ctrl_pending (dtls_step L ps s).1.w_bio) (by omega)
  unfold dtls_step at hp hi hs ⊢
  unfold dtls
  simp only [h, ne_eq, not_true_eq_false, if_false]
  simp only [hi, hs]
  have h1 : ¬ ((BIO_ctrl_pending (try_connect L
      (dtls_feed ps.sfd.dtls s)).2.1.w_bio : Nat) : Int) ≤ 0 := by
    simp only [sizeof_buf] at hp
    omega
  simp only [h1, if_false, gt_iff_lt, hp, if_true]

theorem BIO_read_all (out : mem_bio) (h0 : 0 < out.buf.data.length) :
    BIO_read (some out) (out.buf.data.length : Int)
      = ((out.buf.data.length : Int), out.buf.data, some { out with buf := BUF_MEM.empty }) := by
  have hpos : (0 : Int) < (out.buf.data.length : Int) := by exact_mod_cast h0
  simp [BIO_read, hpos, BUF_MEM.empty]

theorem dtls_send (L : openssl) (ps : packet_stream) (s : Option str)
    (fsin : Option sockaddr_in6) (out : mem_bio) (h : ps.sfd.dtls.connected = 0)
    (hw : (dtls_step L ps s).1.w_bio = some out)
    (h1 : 1 ≤ out.buf.data.length) (h2 : out.buf.data.length ≤ sizeof_buf) :
    dtls L ps s fsin
      = (0, ps.with_dtls { (dtls_step L ps s).1 with
              w_bio := some { out with buf := BUF_MEM.empty } },
          (dtls_step L ps s).2 ++
            [.sendmsg ps.sfd.fd
              { msg_name := some (dtls_destination ps fsin), msg_iov := [out.buf.data],
                msg_control := ps.callmaster.src_control, msg_flags := 0 } 0]) := by
  have hlt := pending_lt (dtls_step L ps s).1.w_bio
  have hi := to_int_of_lt _ hlt
  have hs := to_size_t_of_nat (BIO_ctrl_pending (dtls_step L ps s).1.w_bio) (by omega)
  have hpend : BIO_ctrl_pending (dtls_step L ps s).1.w_bio = out.buf.data.length := by
    rw [hw]; rfl
  rw [hpend] at hi hs
  have hrd := BIO_read_all out (by omega)
  unfold dtls_step at hw hpend ⊢
  unfold dtls
  simp only [h, ne_eq, not_true_eq_false, if_false]
  have hpo : BIO_ctrl_pending (some out) = out.buf.data.length := rfl
  simp only [hw, hpo, hi, hs, hrd]
  have hn0 : ¬ ((out.buf.data.length : Nat) : Int) ≤ 0 := by omega
  have hn1 : ¬ out.buf.data.length > sizeof_buf := by omega
  simp only [hn0, hn1, if_false, Int.toNat_ofNat, List.take_length, callmaster_msg_mh_src,
    dtls_destination]

theorem dtls_step_facts (L : openssl) (ps : packet_stream) (s : Option str) :
    datagrams (dtls_step L ps s).2 = []
    ∧ (dtls_step L ps s).1.init = ps.sfd.dtls.init
    ∧ (dtls_step L ps s).1.active = ps.sfd.dtls.active
    ∧ (dtls_step L ps s).1.ssl_ctx = ps.sfd.dtls.ssl_ctx
    ∧ (dtls_step L ps s).1.ssl.map SSL.addr = ps.sfd.dtls.ssl.map SSL.addr
    ∧ (dtls_step L ps s).1.r_bio.map mem_bio.addr = ps.sfd.dtls.r_bio.map mem_bio.addr
    ∧ (dtls_step L ps s).1.w_bio.map mem_bio.addr = ps.sfd.dtls.w_bio.map mem_bio.addr
    ∧ (∀ e ∈ (dtls_step L ps s).2, e = .SSL_connect ∨ e = .SSL_accept
        ∨ e = .mylog LOG_DEBUG "DTLS handshake successful") := by
  have h := try_connect_events L (dtls_feed ps.sfd.dtls s)
  have hf := dtls_feed_fields ps.sfd.dtls s
  unfold dtls_step
  refine ⟨h.1, h.2.1.trans hf.1, h.2.2.1.trans hf.2.1, h.2.2.2.1.trans hf.2.2.2.1, ?_,
    h.2.2.2.2.2.1.trans hf.2.2.2.2.2.1, ?_, h.2.2.2.2.2.2.2⟩
  · rw [h.2.2.2.2.1, hf.2.2.2.2.1]
  · rw [h.2.2.2.2.2.2.1, hf.2.2.2.2.2.2]

theorem dtls_step_handshake_calls (L : openssl) (ps : packet_stream) (s : Option str)
    (h : ps.sfd.dtls.connected = 0) :
    (dtls_step L ps s).2.count .SSL_connect = (if ps.sfd.dtls.active ≠ 0 then 1 else 0)
    ∧ (dtls_step L ps s).2.count .SSL_accept = (if ps.sfd.dtls.active ≠ 0 then 0 else 1) := by
  have hf := dtls_feed_fields ps.sfd.dtls s
  have hc := try_connect_counts L (dtls_feed ps.sfd.dtls s) (hf.2.2.1.trans h)
  rw [hf.2.1] at hc
  exact hc

/-- The three ways a call of `dtls` on a session that is not connected ends. -/
theorem dtls_cases (L : openssl) (ps : packet_stream) (s : Option str)
    (fsin : Option sockaddr_in6) (h : ps.sfd.dtls.connected = 0) :
    (BIO_ctrl_pending (dtls_step L ps s).1.w_bio = 0
      ∧ dtls L ps s fsin = (0, ps.with_dtls (dtls_step L ps s).1, (dtls_step L ps s).2))
    ∨ (sizeof_buf < BIO_ctrl_pending (dtls_step L ps s).1.w_bio
      ∧ dtls L ps s fsin
        = (0, ps.with_dtls { (dtls_step L ps s).1 with
                w_bio := BIO_reset (dtls_step L ps s).1.w_bio },
            (dtls_step L ps s).2 ++ [.mylog LOG_ERROR "BIO buffer overflow"]))
    ∨ (∃ out : mem_bio, (dtls_step L ps s).1.w_bio = some out
      ∧ 1 ≤ out.buf.data.length ∧ out.buf.data.length ≤ sizeof_buf
      ∧ dtls L ps s fsin
        = (0, ps.with_dtls { (dtls_step L ps s).1 with
                w_bio := some { out with buf := BUF_MEM.empty } },
            (dtls_step L ps s).2 ++
              [.sendmsg ps.sfd.fd
                { msg_name := some (dtls_destination ps fsin), msg_iov := [out.buf.data],
                  msg_control := ps.callmaster.src_control, msg_flags := 0 } 0])) := by
  by_cases hp0 : BIO_ctrl_pending (dtls_step L ps s).1.w_bio = 0
  · exact Or.inl ⟨hp0, dtls_nothing_pending L ps s fsin h hp0⟩
  · by_cases hov : sizeof_buf < BIO_ctrl_pending (dtls_step L ps s).1.w_bio
    · exact Or.inr (Or.inl ⟨hov, dtls_overflow L ps s fsin h hov⟩)
    · right; right
      cases hw : (dtls_step L ps s).1.w_bio with
      | none => rw [hw] at hp0; exact absurd rfl hp0
      | some out =>
        rw [hw] at hp0 hov
        have hl : BIO_ctrl_pending (some out) = out.buf.data.length := rfl
        rw [hl] at hp0 hov
        exact ⟨out, rfl, by omega, by omega, dtls_send L ps s fsin out h hw (by omega) (by omega)⟩

theorem dtls_preserves (L : openssl) (ps : packet_stream) (s : Option str)
    (fsin : Option sockaddr_in6) :
    (dtls L ps s fsin).1 = 0
    ∧ (dtls L ps s fsin).2.1.sfd.dtls.init = ps.sfd.dtls.init
    ∧ (dtls L ps s fsin).2.1.sfd.dtls.active = ps.sfd.dtls.active
    ∧ (dtls L ps s fsin).2.1.sfd.dtls.ssl_ctx = ps.sfd.dtls.ssl_ctx
    ∧ (dtls L ps s fsin).2.1.sfd.dtls.ssl.map SSL.addr = ps.sfd.dtls.ssl.map SSL.addr
    ∧ (dtls L ps s fsin).2.1.sfd.dtls.r_bio.map mem_bio.addr
        = ps.sfd.dtls.r_bio.map mem_bio.addr
    ∧ (dtls L ps s fsin).2.1.sfd.dtls.w_bio.map mem_bio.addr
        = ps.sfd.dtls.w_bio.map mem_bio.addr
    ∧ (∀ e ∈ (dtls L ps s fsin).2.2, e = .SSL_connect ∨ e = .SSL_accept
        ∨ (∃ l m, e = .mylog l m) ∨ ∃ fd mh fl, e = .sendmsg fd mh fl) := by
  by_cases h : ps.sfd.dtls.connected = 0
  · have hf := dtls_step_facts L ps s
    have hev : ∀ e ∈ (dtls_step L ps s).2, e = .SSL_connect ∨ e = .SSL_accept
        ∨ (∃ l m, e = .mylog l m) ∨ ∃ fd mh fl, e = .sendmsg fd mh fl := by
      intro e he
      rcases hf.2.2.2.2.2.2.2 e he with h1 | h1 | h1
      · exact Or.inl h1
      · exact Or.inr (Or.inl h1)
      · exact Or.inr (Or.inr (Or.inl ⟨_, _, h1⟩))
    rcases dtls_cases L ps s fsin h with ⟨_, heq⟩ | ⟨_, heq⟩ | ⟨out, hw, _, _, heq⟩
    · rw [heq]
      exact ⟨rfl, hf.2.1, hf.2.2.1, hf.2.2.2.1, hf.2.2.2.2.1, hf.2.2.2.2.2.1,
        hf.2.2.2.2.2.2.1, hev⟩
    · rw [heq]
      refine ⟨rfl, hf.2.1, hf.2.2.1, hf.2.2.2.1, hf.2.2.2.2.1, hf.2.2.2.2.2.1, ?_, ?_⟩
      · rw [← hf.2.2.2.2.2.2.1]
        cases hw : (dtls_step L ps s).1.w_bio <;>
          simp [packet_stream.with_dtls, BIO_reset, hw]
      · intro e he
        rcases List.mem_append.1 he with he | he
        · exact hev e he
        · exact Or.inr (Or.inr (Or.inl ⟨_, _, List.mem_singleton.1 he⟩))
    · rw [heq]
      refine ⟨rfl, hf.2.1, hf.2.2.1, hf.2.2.2.1, hf.2.2.2.2.1, hf.2.2.2.2.2.1, ?_, ?_⟩
      · rw [← hf.2.2.2.2.2.2.1, hw]
        rfl
      · intro e he
        rcases List.mem_append.1 he with he | he
        · exact hev e he
        · exact Or.inr (Or.inr (Or.inr ⟨_, _, _, List.mem_singleton.1 he⟩))
  · rw [dtls_connected L ps s fsin h]
    exact ⟨rfl, rfl, rfl, rfl, rfl, rfl, rfl, fun e he => absurd he (List.not_mem_nil e)⟩

theorem dtls_handshake_calls (L : openssl) (ps : packet_stream) (s : Option str)
    (fsin : Option sockaddr_in6) (h : ps.sfd.dtls.connected = 0) :
    handshake_calls (dtls L ps s fsin).2.2 = 1 := by
  have hs := dtls_step_handshake_calls L ps s h
  have hstep : handshake_calls (dtls_step L ps s).2 = 1 := by
    unfold handshake_calls
    rw [hs.1, hs.2]
    split <;> rfl
  rcases dtls_cases L ps s fsin h with ⟨_, heq⟩ | ⟨_, heq⟩ | ⟨out, _, _, _, heq⟩
  · rw [heq]; exact hstep
  · rw [heq]
    unfold handshake_calls at hstep ⊢
    simp only [List.count_append]
    simp only [List.count_singleton, beq_iff_eq]
    simpa using hstep
  · rw [heq]
    unfold handshake_calls at hstep ⊢
    simp only [List.count_append]
    simp only [List.count_singleton, beq_iff_eq]
    simpa using hstep

/-- C4: on a session that is not connected, when the outbound BIO holds more
than 65536 bytes after the handshake step, `dtls` empties it, logs the overflow
and sends no datagram; when it holds between 1 and 65536 bytes the overflow
branch is not taken and one datagram is sent. -/
theorem dtls_overflow_discards_outbound (L : openssl) (ps : packet_stream) (s : Option str)
    (fsin : Option sockaddr_in6) (h : ps.sfd.dtls.connected = 0) :
    (65536 < BIO_ctrl_pending (dtls_step L ps s).1.w_bio →
      BIO_ctrl_pending (dtls L ps s fsin).2.1.sfd.dtls.w_bio = 0
      ∧ (dtls L ps s fsin).2.1.sfd.dtls.w_bio = BIO_reset (dtls_step L ps s).1.w_bio
      ∧ datagrams (dtls L ps s fsin).2.2 = []
      ∧ (dtls L ps s fsin).2.2
          = (dtls_step L ps s).2 ++ [.mylog LOG_ERROR "BIO buffer overflow"])
    ∧ (1 ≤ BIO_ctrl_pending (dtls_step L ps s).1.w_bio →
      BIO_ctrl_pending (dtls_step L ps s).1.w_bio ≤ 65536 →
      event.mylog LOG_ERROR "BIO buffer overflow" ∉ (dtls L ps s fsin).2.2
      ∧ (datagrams (dtls L ps s fsin).2.2).length = 1) := by
  have hf := dtls_step_facts L ps s
  have hnolog : event.mylog LOG_ERROR "BIO buffer overflow" ∉ (dtls_step L ps s).2 := by
    intro hm
    rcases hf.2.2.2.2.2.2.2 _ hm with h1 | h1 | h1
    · exact event.noConfusion h1
    · exact event.noConfusion h1
    · simp [LOG_ERROR, LOG_DEBUG] at h1
  have hsz : sizeof_buf = 65536 := rfl
  constructor
  · intro hov
    have heq := dtls_overflow L ps s fsin h (by rw [hsz]; exact hov)
    rw [heq]
    refine ⟨?_, rfl, ?_, rfl⟩
    · cases hw : (dtls_step L ps s).1.w_bio <;>
        simp [packet_stream.with_dtls, hw, BIO_reset, BIO_ctrl_pending, BUF_MEM.empty]
    · simp only [datagrams_append, hf.1]
      simp [datagrams]
  · intro h1 h2
    rcases dtls_cases L ps s fsin h with ⟨h0, _⟩ | ⟨hov, _⟩ | ⟨out, hw, _, _, heq⟩
    · omega
    · omega
    · rw [heq]
      constructor
      · intro hm
        rcases List.mem_append.1 hm with hm | hm
        · exact hnolog hm
        · exact event.noConfusion (List.mem_singleton.1 hm)
      · simp only [datagrams_append, hf.1]
        simp [datagrams]

/-- C5: on a session that is not connected, after the handshake step `dtls`
sends nothing when the outbound BIO is empty; when it holds `n` bytes with
`1 ≤ n ≤ 65536`, `dtls` sends exactly one datagram, whose payload is those `n`
bytes in order, and leaves the outbound BIO empty. -/
theorem dtls_sends_exactly_pending (L : openssl) (ps : packet_stream) (s : Option str)
    (fsin : Option sockaddr_in6) (h : ps.sfd.dtls.connected = 0) :
    (BIO_ctrl_pending (dtls_step L ps s).1.w_bio = 0 → datagrams (dtls L ps s fsin).2.2 = [])
    ∧ (∀ out : mem_bio, (dtls_step L ps s).1.w_bio = some out →
        1 ≤ out.buf.data.length → out.buf.data.length ≤ 65536 →
        datagrams (dtls L ps s fsin).2.2 = [out.buf.data]
        ∧ (dtls L ps s fsin).2.2 = (dtls_step L ps s).2 ++
            [.sendmsg ps.sfd.fd
              { msg_name := some (dtls_destination ps fsin), msg_iov := [out.buf.data],
                msg_control := ps.callmaster.src_control, msg_flags := 0 } 0]
        ∧ (dtls L ps s fsin).2.1.sfd.dtls.w_bio = some { out with buf := BUF_MEM.empty }
        ∧ BIO_ctrl_pending (dtls L ps s fsin).2.1.sfd.dtls.w_bio = 0) := by
  have hf := dtls_step_facts L ps s
  constructor
  · intro hp
    rw [dtls_nothing_pending L ps s fsin h hp]
    exact hf.1
  · intro out hw h1 h2
    rw [dtls_send L ps s fsin out h hw h1 h2]
    simp only [datagrams_append, hf.1]
    simp [datagrams, packet_stream.with_dtls, BIO_ctrl_pending, BUF_MEM.empty]

/-- C6: on a session whose connected flag is set, `dtls` returns 0 and leaves
the stream as it is, with no call made, whatever the inbound bytes and the
destination; a second call gives the same state again. -/
theorem dtls_connected_is_noop (L : openssl) (ps : packet_stream) (s s' : Option str)
    (fsin fsin' : Option sockaddr_in6) (h : ps.sfd.dtls.connected ≠ 0) :
    dtls L ps s fsin = (0, ps, [])
    ∧ dtls L (dtls L ps s fsin).2.1 s' fsin' = (0, ps, []) := by
  have h1 := dtls_connected L ps s fsin h
  refine ⟨h1, ?_⟩
  rw [h1]
  exact dtls_connected L ps s' fsin' h

/-- C10: on a session that is not connected, `try_connect` calls `SSL_connect`
exactly when the role is active and `SSL_accept` exactly when it is passive;
afterwards the connected flag is set if and only if `SSL_get_error` reported
`SSL_ERROR_NONE`; the init and active flags are unchanged, and after a step
that did not succeed the next call of `dtls` makes one handshake step again. -/
theorem try_connect_role_and_outcome (L : openssl) (d : dtls_connection)
    (hc : d.connected = 0) :
    ((try_connect L d).2.2.count .SSL_connect = if d.active ≠ 0 then 1 else 0)
    ∧ ((try_connect L d).2.2.count .SSL_accept = if d.active ≠ 0 then 0 else 1)
    ∧ ((try_connect L d).2.1.connected ≠ 0 ↔ handshake_code L d = SSL_ERROR_NONE)
    ∧ (handshake_code L d ≠ SSL_ERROR_NONE → (try_connect L d).2.1.connected = 0)
    ∧ (try_connect L d).2.1.init = d.init
    ∧ (try_connect L d).2.1.active = d.active
    ∧ (∀ (ps : packet_stream) (s : Option str) (fsin : Option sockaddr_in6),
        ps.sfd.dtls = (try_connect L d).2.1 → handshake_code L d ≠ SSL_ERROR_NONE →
        handshake_calls (dtls L ps s fsin).2.2 = 1) := by
  have hev := try_connect_events L d
  have hcount := try_connect_counts L d hc
  have hconn : (try_connect L d).2.1.connected ≠ 0 ↔ handshake_code L d = SSL_ERROR_NONE := by
    rw [try_connect_eq L d hc]
    by_cases hk : handshake_code L d = SSL_ERROR_NONE
    · simp [hk]
    · simp only [hk, if_false, iff_false, ne_eq, not_not]
      exact hc
  have hstay : handshake_code L d ≠ SSL_ERROR_NONE → (try_connect L d).2.1.connected = 0 := by
    intro hne
    by_contra hcon
    exact hne (hconn.1 hcon)
  refine ⟨hcount.1, hcount.2, hconn, hstay, hev.2.1, hev.2.2.1, ?_⟩
  intro ps s fsin hps hne
  exact dtls_handshake_calls L ps s fsin (by rw [hps]; exact hstay hne)

/-- C7: on a session whose init flag is set, `dtls_connection_init` does
exactly what `dtls(ps, NULL, NULL)` does on the unchanged stream and returns 0,
for every role and certificate argument: init flag, stored role, context,
handshake object and the two buffer objects stay the ones they were, and the
only calls made are those of the one drive call (handshake step, log, send),
none that builds a context or a buffer. -/
theorem dtls_connection_init_again (L : openssl) (ciphers_str : List Nat) (ps : packet_stream)
    (active : Int) (cert : dtls_cert) (h : ps.sfd.dtls.init ≠ 0) :
    dtls_connection_init L ciphers_str ps active cert
      = (0, (dtls L ps none none).2.1, (dtls L ps none none).2.2)
    ∧ (dtls_connection_init L ciphers_str ps active cert).1 = 0
    ∧ (dtls_connection_init L ciphers_str ps active cert).2.1.sfd.dtls.init = ps.sfd.dtls.init
    ∧ (dtls_connection_init L ciphers_str ps active cert).2.1.sfd.dtls.active
        = ps.sfd.dtls.active
    ∧ (dtls_connection_init L ciphers_str ps active cert).2.1.sfd.dtls.ssl_ctx
        = ps.sfd.dtls.ssl_ctx
    ∧ (dtls_connection_init L ciphers_str ps active cert).2.1.sfd.dtls.ssl.map SSL.addr
        = ps.sfd.dtls.ssl.map SSL.addr
    ∧ (dtls_connection_init L ciphers_str ps active cert).2.1.sfd.dtls.r_bio.map mem_bio.addr
        = ps.sfd.dtls.r_bio.map mem_bio.addr
    ∧ (dtls_connection_init L ciphers_str ps active cert).2.1.sfd.dtls.w_bio.map mem_bio.addr
        = ps.sfd.dtls.w_bio.map mem_bio.addr
    ∧ (∀ e ∈ (dtls_connection_init L ciphers_str ps active cert).2.2,
        e = .SSL_connect ∨ e = .SSL_accept ∨ (∃ l m, e = .mylog l m)
          ∨ ∃ fd mh fl, e = .sendmsg fd mh fl) := by
  have heq : dtls_connection_init L ciphers_str ps active cert
      = (0, (dtls L ps none none).2.1, (dtls L ps none none).2.2) := by
    unfold dtls_connection_init dtls_connection_init_connect
    simp [h]
  have hp := dtls_preserves L ps none none
  rw [heq]
  exact ⟨rfl, rfl, hp.2.1, hp.2.2.1, hp.2.2.2.1, hp.2.2.2.2.1, hp.2.2.2.2.2.1,
    hp.2.2.2.2.2.2.1, hp.2.2.2.2.2.2.2⟩

theorem init_error_facts (ps : packet_stream) (d : dtls_connection) (ev : List event)
    (hh : handshake_calls ev = 0) (hd : datagrams ev = []) :
    (dtls_connection_init_error ps d ev).1 = -1
    ∧ (dtls_connection_init_error ps d ev).2.1 = ps.with_dtls dtls_connection.ZERO
    ∧ handshake_calls (dtls_connection_init_error ps d ev).2.2 = 0
    ∧ datagrams (dtls_connection_init_error ps d ev).2.2 = [] := by
  unfold dtls_connection_init_error
  refine ⟨rfl, rfl, ?_, ?_⟩
  · unfold handshake_calls at hh ⊢
    simp only [List.count_append]
    have h1 := Nat.eq_zero_of_add_eq_zero hh
    rw [h1.1, h1.2]
    split <;> split <;> split <;> split <;> simp
  · simp only [datagrams_append, hd]
    split <;> split <;> split <;> split <;> simp [datagrams]

/-- C8: on a session whose init flag is clear, if a construction step of
`dtls_connection_init` fails the call returns -1, leaves the session all zero
and makes no handshake step and sends no datagram; if every step succeeds it
returns 0 with init = 1 and the stored role equal to the requested one. -/
theorem dtls_connection_init_fresh (L : openssl) (ciphers_str : List Nat) (ps : packet_stream)
    (active : Int) (cert : dtls_cert) (h : ps.sfd.dtls.init = 0) :
    (construction_succeeds L ciphers_str active cert = false →
      (dtls_connection_init L ciphers_str ps active cert).1 = -1
      ∧ (dtls_connection_init L ciphers_str ps active cert).2.1
          = ps.with_dtls dtls_connection.ZERO
      ∧ handshake_calls (dtls_connection_init L ciphers_str ps active cert).2.2 = 0
      ∧ datagrams (dtls_connection_init L ciphers_str ps active cert).2.2 = [])
    ∧ (construction_succeeds L ciphers_str active cert = true →
      (dtls_connection_init L ciphers_str ps active cert).1 = 0
      ∧ (dtls_connection_init L ciphers_str ps active cert).2.1.sfd.dtls.init = 1
      ∧ (dtls_connection_init L ciphers_str ps active cert).2.1.sfd.dtls.active = active) := by
  unfold construction_succeeds dtls_connection_init
  simp only [h, ne_eq, not_true_eq_false, if_false]
  cases hctx : L.SSL_CTX_new (decide ¬active = 0) with
  | none =>
    simp only [false_implies, and_true, true_implies, reduceCtorEq]
    exact init_error_facts _ _ _ (by simp [handshake_calls]) (by simp [datagrams])
  | some ctx =>
    simp only
    by_cases hcert : L.SSL_CTX_use_certificate ctx cert.x509 = 1
    · by_cases hkey : L.SSL_CTX_use_PrivateKey ctx cert.pkey = 1
      · by_cases hsrtp : L.SSL_CTX_set_tlsext_use_srtp ctx ciphers_str = 0
        · cases hssl : L.SSL_new ctx with
          | none =>
            simp only [hcert, hkey, hsrtp, not_true_eq_false, if_false, decide_True,
              Bool.and_self, Option.isSome_none, Bool.and_false, Bool.false_and, true_implies,
              false_implies, and_true, reduceCtorEq]
            exact init_error_facts _ _ _ (by simp [handshake_calls]) (by simp [datagrams])
          | some ssl =>
            cases hr : L.BIO_new 0 with
            | none =>
              simp only [hcert, hkey, hsrtp, not_true_eq_false, if_false, decide_True,
                Bool.and_self, Option.isSome_none, Option.isSome_some, Bool.and_false,
                Bool.false_and, Bool.and_true, true_implies, Option.isNone_none, true_or,
                if_true, false_implies, and_true, reduceCtorEq]
              exact init_error_facts _ _ _ (by simp [handshake_calls]) (by simp [datagrams])
            | some r =>
              cases hw : L.BIO_new 1 with
              | none =>
                simp only [hcert, hkey, hsrtp, not_true_eq_false, if_false, decide_True,
                  Bool.and_self, Option.isSome_none, Option.isSome_some, Bool.and_false,
                  Bool.false_and, Bool.and_true, true_implies, Option.isNone_none, or_true,
                  if_true, false_implies, and_true, reduceCtorEq]
                exact init_error_facts _ _ _ (by simp [handshake_calls]) (by simp [datagrams])
              | some w =>
                simp only [hcert, hkey, hsrtp, not_true_eq_false, if_false, decide_True,
                  Bool.and_self, Option.isSome_some, Option.isNone_some, or_self,
                  Bool.false_eq_true, false_implies, true_and, true_implies, reduceCtorEq]
                unfold dtls_connection_init_connect
                have hp := dtls_preserves L (ps.with_dtls
                  { ssl_ctx := some ctx, ssl := some ssl, r_bio := some r, w_bio := some w,
                    init := 1, active := active, connected := 0 }) none none
                exact ⟨rfl, hp.2.1, hp.2.2.1⟩
        · simp only [hcert, hkey, hsrtp, not_true_eq_false, not_false_eq_true, if_false, if_true,
            decide_True, decide_False, Bool.and_self, Bool.and_false, Bool.false_and,
            true_implies, false_implies, and_true, Bool.false_eq_true, reduceCtorEq]
          exact init_error_facts _ _ _ (by simp [handshake_calls]) (by simp [datagrams])
      · simp only [hcert, hkey, not_true_eq_false, not_false_eq_true, if_false, if_true,
          decide_True, decide_False, Bool.and_self, Bool.and_false, Bool.false_and,
          true_implies, false_implies, and_true, Bool.false_eq_true, reduceCtorEq]
        exact init_error_facts _ _ _ (by simp [handshake_calls]) (by simp [datagrams])
    · simp only [hcert, not_false_eq_true, if_true, decide_False, Bool.false_and,
        true_implies, false_implies, and_true, Bool.false_eq_true, reduceCtorEq]
      exact init_error_facts _ _ _ (by simp [handshake_calls]) (by simp [datagrams])

theorem colon_terminated_length (ns : List (List Nat)) :
    (colon_terminated ns).length = written_len ns := by
  induction ns with
  | nil => rfl
  | cons n ns ih =>
    simp only [colon_terminated, List.length_append, ih, written_len, List.map_cons,
      List.sum_cons, List.length_singleton] at *

theorem colon_terminated_eq_join (ns : List (List Nat)) (h : ns ≠ []) :
    colon_terminated ns = join_colon ns ++ [58] := by
  induction ns with
  | nil => exact absurd rfl h
  | cons n ns ih =>
    cases ns with
    | nil => simp [colon_terminated, join_colon, List.intercalate, List.intersperse]
    | cons m ms =>
      have ih' := ih (by simp)
      simp only [colon_terminated] at ih' ⊢
      rw [ih']
      simp [join_colon, List.intercalate, List.intersperse]

theorem cstr_no_nul (l : List Nat) : ∀ b ∈ cstr l, b ≠ 0 := by
  intro b hb
  have := List.mem_takeWhile_imp hb
  simpa using this

theorem join_colon_no_nul (ns : List (List Nat)) (h : ∀ n ∈ ns, ∀ b ∈ n, b ≠ 0) :
    ∀ b ∈ join_colon ns, b ≠ 0 := by
  intro b hb
  by_cases hns : ns = []
  · subst hns
    simp [join_colon, List.intercalate, List.intersperse] at hb
  · have hmem : b ∈ colon_terminated ns := by
      rw [colon_terminated_eq_join ns hns]
      exact List.mem_append_left _ hb
    clear hb hns
    induction ns with
    | nil => simp [colon_terminated] at hmem
    | cons n ns ih =>
      simp only [colon_terminated, List.mem_append, List.mem_singleton] at hmem
      rcases hmem with (hm | hm) | hm
      · exact h n (by simp) b hm
      · omega
      · exact ih (fun m hm' => h m (by simp [hm'])) hm

theorem dtls_names_cons_none (cs : crypto_suite) (rest : List crypto_suite)
    (h : cs.dtls_name = none) : dtls_names (cs :: rest) = dtls_names rest := by
  simp [dtls_names, List.filterMap_cons, h]

theorem dtls_names_cons_some (cs : crypto_suite) (rest : List crypto_suite) (nm : List Nat)
    (h : cs.dtls_name = some nm) : dtls_names (cs :: rest) = cstr nm :: dtls_names rest := by
  simp [dtls_names, List.filterMap_cons, h]

theorem dtls_init_loop_ok : ∀ (suites : List crypto_suite) (buf : List Nat) (p : Nat),
    p + written_len (dtls_names suites) < buf.length →
    ∃ buf', dtls_init_loop suites buf p = .ok (buf', p + written_len (dtls_names suites))
      ∧ buf'.length = buf.length
      ∧ buf'.take (p + written_len (dtls_names suites))
          = buf.take p ++ colon_terminated (dtls_names suites) := by
  intro suites
  induction suites with
  | nil =>
    intro buf p _
    exact ⟨buf, by simp [dtls_init_loop, dtls_names, written_len],
      rfl, by simp [dtls_names, written_len, colon_terminated]⟩
  | cons cs rest ih =>
    intro buf p hfit
    cases hn : cs.dtls_name with
    | none =>
      rw [dtls_names_cons_none cs rest hn] at hfit ⊢
      obtain ⟨buf', h1, h2, h3⟩ := ih buf p hfit
      exact ⟨buf', by simp only [dtls_init_loop, hn]; exact h1, h2, h3⟩
    | some nm =>
      rw [dtls_names_cons_some cs rest nm hn] at hfit ⊢
      have hW : written_len (cstr nm :: dtls_names rest)
          = (cstr nm).length + 1 + written_len (dtls_names rest) := by
        simp [written_len]
      rw [hW] at hfit ⊢
      have hlen : (cstr nm ++ [58, 0]).length = (cstr nm).length + 2 := by simp
      have hin : p + (cstr nm ++ [58, 0]).length ≤ buf.length := by rw [hlen]; omega
      have hsp : sprintf_name buf p nm
          = .ok (buf.take p ++ (cstr nm ++ [58, 0]) ++ buf.drop (p + ((cstr nm).length + 2)),
              (cstr nm).length + 1) := by
        unfold sprintf_name
        simp only [hlen]
        rw [if_pos (by omega)]
        rfl
      have hl1 : (buf.take p ++ (cstr nm ++ [58, 0])
          ++ buf.drop (p + ((cstr nm).length + 2))).length = buf.length := by
        simp only [List.length_append, List.length_take, List.length_drop, hlen]
        omega
      obtain ⟨buf', h1, h2, h3⟩ := ih
        (buf.take p ++ (cstr nm ++ [58, 0]) ++ buf.drop (p + ((cstr nm).length + 2)))
        (p + ((cstr nm).length + 1)) (by rw [hl1]; omega)
      refine ⟨buf', ?_, h2.trans hl1, ?_⟩
      · simp only [dtls_init_loop, hn, hsp]
        rw [h1]
        congr 2
        omega
      · have e : p + ((cstr nm).length + 1 + written_len (dtls_names rest))
            = p + ((cstr nm).length + 1) + written_len (dtls_names rest) := by omega
        rw [e, h3]
        have ht : (buf.take p ++ (cstr nm ++ [58, 0])
            ++ buf.drop (p + ((cstr nm).length + 2))).take (p + ((cstr nm).length + 1))
            = buf.take p ++ (cstr nm ++ [58]) := by
          have hp : (buf.take p).length = p := by
            rw [List.length_take]; omega
          rw [List.append_assoc, List.take_append_eq_append_take, hp]
          have e1 : p + ((cstr nm).length + 1) - p = (cstr nm).length + 1 := by omega
          rw [e1, List.take_of_length_le (by rw [hp]; omega)]
          congr 1
          rw [List.take_append_eq_append_take]
          have e2 : (cstr nm).length + 1 - (cstr nm ++ [58, 0]).length = 0 := by
            rw [hlen]; omega
          rw [e2, List.take_zero, List.append_nil, List.take_append_eq_append_take]
          simp
        rw [ht]
        simp [colon_terminated, List.append_assoc]

/-- C9, with the exact bound: when `cert_init` succeeded, at least one suite defines a
DTLS profile name and what the loop writes (each name with a ':' after it, and
the NUL `sprintf` puts after the last ':') is at most 1024 bytes, `dtls_init`
passes both assertions and returns 0, and the string left in `ciphers_str` is
the names of the suites that define one, in table order, joined by single ':'
characters. -/
theorem dtls_init_ciphers_str (crypto_suites : List crypto_suite)
    (hsome : dtls_names crypto_suites ≠ [])
    (hfit : written_len (dtls_names crypto_suites) + 1 ≤ 1024) :
    ∃ ciphers_str, dtls_init 0 crypto_suites = .ok (0, ciphers_str)
      ∧ ciphers_str.length = 1024
      ∧ cstr ciphers_str = join_colon (dtls_names crypto_suites) := by
  have h0 : (List.replicate sizeof_ciphers_str 0).length = 1024 := by
    rw [List.length_replicate]; rfl
  obtain ⟨buf, h1, h2, h3⟩ := dtls_init_loop_ok crypto_suites
    (List.replicate sizeof_ciphers_str 0) 0 (by rw [h0]; omega)
  have hWpos : 0 < written_len (dtls_names crypto_suites) := by
    cases hns : dtls_names crypto_suites with
    | nil => exact absurd hns hsome
    | cons n ns => simp [written_len]
  rw [Nat.zero_add] at h1 h3
  rw [List.take_zero, List.nil_append, colon_terminated_eq_join _ hsome] at h3
  refine ⟨buf.set (written_len (dtls_names crypto_suites) - 1) 0, ?_, ?_, ?_⟩
  · unfold dtls_init
    simp only [ne_eq, not_true_eq_false, if_false, h1]
    have hp0 : ¬ written_len (dtls_names crypto_suites) = 0 := by omega
    have hp1 : written_len (dtls_names crypto_suites) < sizeof_ciphers_str := by
      simp only [sizeof_ciphers_str]; omega
    simp [hp0, hp1]
  · rw [List.length_set, h2, h0]
  · have hJ : (join_colon (dtls_names crypto_suites)).length + 1
        = written_len (dtls_names crypto_suites) := by
      have hl := congrArg List.length h3
      rw [List.length_take, List.length_append, List.length_singleton, h2, h0] at hl
      omega
    have htake : buf.take (written_len (dtls_names crypto_suites) - 1)
        = join_colon (dtls_names crypto_suites) := by
      have hmin : min (written_len (dtls_names crypto_suites) - 1)
          (written_len (dtls_names crypto_suites))
          = written_len (dtls_names crypto_suites) - 1 := by omega
      have ht := congrArg (List.take (written_len (dtls_names crypto_suites) - 1)) h3
      rw [List.take_take, hmin] at ht
      rw [ht]
      exact List.take_left' (by omega)
    have hnn : ∀ b ∈ join_colon (dtls_names crypto_suites), (b != 0) = true := by
      intro b hb
      have := join_colon_no_nul (dtls_names crypto_suites) (by
        intro n hn
        unfold dtls_names at hn
        obtain ⟨nm, _, rfl⟩ := List.mem_map.1 hn
        exact cstr_no_nul nm) b hb
      simpa using this
    rw [List.set_eq_take_append_cons_drop, if_pos (by rw [h2, h0]; omega), htake]
    unfold cstr
    rw [List.takeWhile_append_of_pos hnn]
    simp

/-! ## The properties at concrete inputs -/

/-- The mixed-case name "ShA-256" finds the sha-256 entry. -/
theorem dtls_find_hash_func_witness :
    dtls_find_hash_func ⟨[83, 104, 65, 45, 50, 53, 54]⟩
      = some ⟨[115, 104, 97, 45, 50, 53, 54], 32, .sha_256_func⟩ :=
  (dtls_find_hash_func_case_insensitive ⟨[83, 104, 65, 45, 50, 53, 54]⟩).2.2.2.2.2.1
    (by decide)

/-- A certificate whose digest is the stored one is accepted. -/
theorem verify_callback_accepts_witness :
    (verify_callback (sample_openssl BUF_MEM.empty 0 none)
      (sample_memory (sample_stream (sample_session 1 0 0) (some sample_media))) [] 0
      sample_store).1 = 1 :=
  (verify_callback_accepts_iff_digest_identical (sample_openssl BUF_MEM.empty 0 none)
    (sample_memory (sample_stream (sample_session 1 0 0) (some sample_media))) [] 0
    sample_store 9 sample_media ⟨[115, 104, 97, 45, 49], 20, .sha_1_func⟩
    rfl rfl rfl rfl (by decide) (by decide)).1.2 (by decide)

/-- A stream without media rejects without any call. -/
theorem verify_callback_fail_closed_witness :
    verify_callback (sample_openssl BUF_MEM.empty 0 none)
      (sample_memory (sample_stream (sample_session 1 0 0) none)) [] 1 sample_store
      = (0, []) :=
  verify_callback_fail_closed (sample_openssl BUF_MEM.empty 0 none)
    (sample_memory (sample_stream (sample_session 1 0 0) none)) [] 1 sample_store
    (Or.inr (Or.inr (Or.inl ⟨9, rfl, rfl⟩)))

/-- A step that leaves 65537 bytes pending sends nothing. -/
theorem dtls_overflow_witness :
    datagrams (dtls (sample_openssl sample_oversized 2 none)
      (sample_stream (sample_session 1 0 0) none) none none).2.2 = [] :=
  ((dtls_overflow_discards_outbound (sample_openssl sample_oversized 2 none)
    (sample_stream (sample_session 1 0 0) none) none none rfl).1
    (by
      show 65536 < (List.replicate 65537 0).length
      rw [List.length_replicate]
      decide)).2.2.1

/-- A step that leaves a three-byte record pending sends exactly that record. -/
theorem dtls_sends_witness :
    datagrams (dtls (sample_openssl sample_record 2 none)
      (sample_stream (sample_session 1 0 0) none) none none).2.2 = [[22, 254, 255]] :=
  ((dtls_sends_exactly_pending (sample_openssl sample_record 2 none)
    (sample_stream (sample_session 1 0 0) none) none none rfl).2
    ⟨21, sample_record⟩ rfl (by decide) (by decide)).1

/-- A connected session ignores a received datagram. -/
theorem dtls_connected_witness :
    dtls (sample_openssl sample_record 0 none)
      (sample_stream (sample_session 1 0 1) none) (some ⟨[1, 2, 3]⟩) none
      = (0, sample_stream (sample_session 1 0 1) none, []) :=
  (dtls_connected_is_noop (sample_openssl sample_record 0 none)
    (sample_stream (sample_session 1 0 1) none) (some ⟨[1, 2, 3]⟩) none none none
    (by decide)).1

/-- An active session takes its step with `SSL_connect`. -/
theorem try_connect_witness :
    (try_connect (sample_openssl BUF_MEM.empty 2 none) (sample_session 1 1 0)).2.2.count .SSL_connect
      = 1 :=
  (try_connect_role_and_outcome (sample_openssl BUF_MEM.empty 2 none) (sample_session 1 1 0) rfl).1

/-- A second initialisation with the other role keeps the passive role. -/
theorem dtls_connection_init_again_witness :
    (dtls_connection_init (sample_openssl BUF_MEM.empty 2 none) [] (sample_stream (sample_session 1 0 0) none)
      1 ⟨[1, 2, 3], [4]⟩).2.1.sfd.dtls.active = 0 :=
  (dtls_connection_init_again (sample_openssl BUF_MEM.empty 2 none) []
    (sample_stream (sample_session 1 0 0) none) 1 ⟨[1, 2, 3], [4]⟩ (by decide)).2.2.2.1

/-- A failed context creation returns -1. -/
theorem dtls_connection_init_fresh_witness :
    (dtls_connection_init (sample_openssl BUF_MEM.empty 2 none) []
      (sample_stream dtls_connection.ZERO none) 1 ⟨[1, 2, 3], [4]⟩).1 = -1 :=
  ((dtls_connection_init_fresh (sample_openssl BUF_MEM.empty 2 none) []
    (sample_stream dtls_connection.ZERO none) 1 ⟨[1, 2, 3], [4]⟩ rfl).1 rfl).1

/-- C9 at the boundary of the buffer: for a table whose single DTLS name
is 1023 bytes long, the joined names with their NUL are exactly 1024 bytes and
so fit in `ciphers_str`, but the loop has written 1024 bytes before the NUL,
`sprintf` writes past the end of the buffer and the second assertion,
`p - ciphers_str < sizeof(ciphers_str)`, does not hold. -/
theorem dtls_init_boundary_counterexample :
    dtls_names sample_long_suites ≠ []
    ∧ (join_colon (dtls_names sample_long_suites)).length + 1 ≤ sizeof_ciphers_str
    ∧ ¬ written_len (dtls_names sample_long_suites) < sizeof_ciphers_str
    ∧ dtls_init 0 sample_long_suites = .error .buffer_overrun := by
  have hc : cstr (List.replicate 1023 65) = List.replicate 1023 65 :=
    cstr_of_no_nul _ (by
      intro b hb
      rw [(List.mem_replicate.1 hb).2]
      decide)
  have hl : (List.replicate 1023 65).length = 1023 := List.length_replicate _ _
  have hz : (List.replicate sizeof_ciphers_str 0).length = 1024 := List.length_replicate _ _
  unfold sample_long_suites
  generalize List.replicate 1023 65 = nm at hc hl
  have hn : dtls_names [⟨[120], some nm⟩] = [nm] := by
    simp only [dtls_names, List.filterMap_cons, List.filterMap_nil, List.map_cons,
      List.map_nil, hc]
  rw [hn]
  refine ⟨List.cons_ne_nil _ _, ?_, ?_, ?_⟩
  · have hj : join_colon [nm] = nm := by
      simp [join_colon, List.intercalate, List.intersperse]
    rw [hj, hl]
    decide
  · have hw : written_len [nm] = 1024 := by
      simp [written_len, hl]
    rw [hw]
    decide
  · have hs : sprintf_name (List.replicate sizeof_ciphers_str 0) 0 nm
        = .error .buffer_overrun := by
      have ho : (nm ++ [58, 0]).length = 1025 := by
        rw [List.length_append, hl]
        rfl
      unfold sprintf_name
      rw [hc, hz]
      simp only [ho]
      rfl
    unfold dtls_init
    rw [if_neg (by decide)]
    simp only [dtls_init_loop, hs]

/-- The profiles "AB" and "C" are advertised as "AB:C". -/
theorem dtls_init_witness :
    ∃ ciphers_str, dtls_init 0 sample_suites = .ok (0, ciphers_str)
      ∧ ciphers_str.length = 1024
      ∧ cstr ciphers_str = [65, 66, 58, 67] :=
  dtls_init_ciphers_str sample_suites (by decide) (by decide)

end Dtls
